import Mathlib

/-!
Verification of `nomac_test` (`src/linklabs_1_5_0/nomac_test/src/main.c`).

A shallow embedding of the data-plane routines of the Link Labs `nomac_test`
command-line tool: the in-place hexadecimal decoder `buffer_to_hex`, the
receive-frame reports of `echo_tx_with_payload`, `echo_test_mode` and
`rx_mode_cont`, the interrupt-flag printer `print_irq_flags_text`, the clock
difference `timeval_diff_ms`, the command loops `rx_mode_single`,
`rx_mode_cont`, `echo_test_mode` and `echo_tx_with_payload` against an
arbitrary transport, and the mask of the `--irq_flags_clear` command.

Conventions.
* A byte is a `Nat` below 256 (the bit pattern of a C `char`/`uint8_t`).
* A C buffer is the `List Nat` of the bytes found from the pointer on.
* `exit(EXIT_FAILURE)` is a constructor of the outcome type that carries the
  buffer as it stands at the call of `exit`.
* `printf` output is the list of the values handed to `printf`.
-/

namespace NomacTest

/-! ## C library functions used by the program -/

/-- The C function `strlen`: the number of bytes before the first NUL. -/
def strlen : List Nat → Nat
  | [] => 0
  | b :: bs => if b = 0 then 0 else strlen bs + 1

/-- The C function `toupper` ("C" locale): `a`..`z` map to `A`..`Z`. -/
def toupper (c : Nat) : Nat :=
  if 97 ≤ c ∧ c ≤ 122 then c - 32 else c

/-- The C function `isdigit`: true on `0`..`9` only. -/
def isdigit (c : Nat) : Bool :=
  decide (48 ≤ c ∧ c ≤ 57)

/-! ## `buffer_to_hex` (main.c 333-384) -/

/-- How a call of `buffer_to_hex` ends. -/
inductive HexOutcome where
  /-- `return strlen(buf);` with the buffer as left by the call. -/
  | returned (ret : Nat) (buf : List Nat)
  /-- `exit(EXIT_FAILURE)` after "hex payload must contain even number of
  characters" (main.c 338-343). -/
  | oddLength (buf : List Nat)
  /-- `exit(EXIT_FAILURE)` after "hex payload must only contain characters:
  0-9, a-f, A-F" (main.c 361-366). -/
  | invalidChar (buf : List Nat)
  deriving DecidableEq, Repr

/-- The "pack the buffer" step (main.c 368-378) for loop index `i` and nibble
`x`: `buf[(i-1)/2] |= x` for odd `i`, `buf[i/2] = x<<4` for even `i`; the
stored value is truncated to one byte. -/
def packNibble (buf : List Nat) (i x : Nat) : List Nat :=
  if i &&& 1 ≠ 0 then
    buf.set ((i - 1) / 2) ((buf.getD ((i - 1) / 2) 0 ||| x) % 256)
  else
    buf.set (i / 2) ((x <<< 4) % 256)

/-- The loop `for(i=0; i<num_chars; i++)` of `buffer_to_hex` (main.c 345-379),
entered at index `i` with `remaining = num_chars - i` iterations to go.
`Except.error buf` is the `exit` of the invalid-character branch, reached with
buffer `buf`; `Except.ok buf` is the normal end of the loop. -/
def hexLoop : Nat → Nat → List Nat → Except (List Nat) (List Nat)
  | 0, _, buf => .ok buf
  | remaining + 1, i, buf =>
    let c := toupper (buf.getD i 0)
    if isdigit c then
      hexLoop remaining (i + 1) (packNibble buf i (c - 48))
    else if 65 ≤ c ∧ c ≤ 70 then
      hexLoop remaining (i + 1) (packNibble buf i (c - 65 + 10))
    else
      .error buf

/-- The function `buffer_to_hex(char* buf)`. `num_chars` is a `uint16_t`, so
`strlen(buf)` is reduced modulo `2^16` on assignment. -/
def buffer_to_hex (buf : List Nat) : HexOutcome :=
  let num_chars := strlen buf % 65536
  if num_chars &&& 1 ≠ 0 then
    .oddLength buf
  else
    match hexLoop num_chars 0 buf with
    | .error b => .invalidChar b
    | .ok b =>
      let b1 := b.set (num_chars / 2) 0
      .returned (strlen b1) b1

/-! ## Vocabulary of the hexadecimal claims -/

/-- Membership in the character set `[0-9A-Fa-f]`. -/
def isHexChar (c : Nat) : Prop :=
  (48 ≤ c ∧ c ≤ 57) ∨ (65 ≤ c ∧ c ≤ 70) ∨ (97 ≤ c ∧ c ≤ 102)

instance (c : Nat) : Decidable (isHexChar c) := by
  unfold isHexChar; infer_instance

/-- The value 0..15 of a hexadecimal digit character (0 on other input). -/
def hexval (c : Nat) : Nat :=
  if 48 ≤ c ∧ c ≤ 57 then c - 48
  else if 65 ≤ c ∧ c ≤ 70 then c - 55
  else if 97 ≤ c ∧ c ≤ 102 then c - 87
  else 0

/-- The uppercase hexadecimal digit character of a value 0..15. -/
def hexDigitUpper (v : Nat) : Nat :=
  if v < 10 then 48 + v else 55 + v

/-- Re-encoding of a byte sequence as uppercase hexadecimal text, two digits a
byte, high nibble first. -/
def encodeHexUpper : List Nat → List Nat
  | [] => []
  | b :: bs => hexDigitUpper (b / 16) :: hexDigitUpper (b % 16) :: encodeHexUpper bs

/-- The C string stored for `text`: the characters followed by the NUL. -/
def cstr (text : List Nat) : List Nat := text ++ [0]

/-- The byte sequence denoted by hexadecimal text read pair by pair, first
character the high nibble. -/
def decodePairs : List Nat → List Nat
  | a :: b :: rest => (16 * hexval a + hexval b) :: decodePairs rest
  | _ => []

/-- The buffer of `buffer_to_hex` after the loop has consumed the first `i`
characters of the original buffer `buf0`, position by position. -/
def hexStateAt (buf0 : List Nat) (i p : Nat) : Nat :=
  if 2 * p + 1 < i then 16 * hexval (buf0.getD (2 * p) 0) + hexval (buf0.getD (2 * p + 1) 0)
  else if 2 * p < i then 16 * hexval (buf0.getD (2 * p) 0)
  else buf0.getD p 0

/-- Invariant of the loop of `buffer_to_hex` at index `i`: the buffer has its
original length and holds `hexStateAt buf0 i` at every position. -/
def HexInv (buf0 : List Nat) (i : Nat) (b : List Nat) : Prop :=
  b.length = buf0.length ∧ ∀ p, b.getD p 0 = hexStateAt buf0 i p


/-! ## Receive-frame reports (main.c 273-286, 424-451, 560-573)

The receive buffer is the static array `rx_buf[RX_BUF_LEN]`; a received frame
of `rx_len` bytes occupies `rx_buf[0 .. rx_len)` and the bytes after it are
whatever the array held before. A report is `none` when the C code indexes
outside the array it is given (undefined behaviour). -/

/-- The constant `RX_BUF_LEN` (main.c 227). -/
def RX_BUF_LEN : Nat := 255

/-- The array read `rx_buf[i]` for a C `int` index `i`. -/
def readByte (rx_buf : List Nat) (i : Int) : Option Nat :=
  if 0 ≤ i then rx_buf[i.toNat]? else none

/-- The bytes printed by `for (c = start; c < stop; c++) printf("%c", rx_buf[c]);`
where `stop` is a C `int`. -/
def readRange (rx_buf : List Nat) (start : Nat) (stop : Int) : Option (List Nat) :=
  (List.range' start (stop.toNat - start)).mapM (fun c => rx_buf[c]?)

/-- The cast `(int8_t)b` of a byte. -/
def int8 (b : Nat) : Int :=
  if b % 256 < 128 then (b % 256 : Nat) else ((b % 256 : Nat) : Int) - 256

/-- The read `*((int16_t *)&rx_buf[k])` on a little-endian host, from the two
bytes `b0 = rx_buf[k]`, `b1 = rx_buf[k+1]`. -/
def int16_le (b0 b1 : Nat) : Int :=
  let u := b0 % 256 + 256 * (b1 % 256)
  if u < 32768 then (u : Int) else (u : Int) - 65536

/-- The read `*(int32_t *)&rx_buf[k]` on a little-endian host, from the four
bytes `rx_buf[k] .. rx_buf[k+3]`. -/
def int32_le (b0 b1 b2 b3 : Nat) : Int :=
  let u := b0 % 256 + 256 * (b1 % 256) + 65536 * (b2 % 256) + 16777216 * (b3 % 256)
  if u < 2147483648 then (u : Int) else (u : Int) - 4294967296

/-- The expression `(int8_t)b / 4.0`. The quotient of an `int8_t` by 4 is
exact in a `double`, so it is kept as a rational number. -/
def snrOf (b : Nat) : ℚ := (int8 b : ℚ) / 4

/-- The expression `b + -137` on a `uint8_t` promoted to `int`. -/
def rssiOf (b : Nat) : Int := (b : Int) + -137

/-- What `echo_tx_with_payload` prints after its receive attempts: the
characters of the `%c` loop and the two values of the `rssi`/`snr` format, or
the line "Rx: No packet". -/
inductive EchoTxReport where
  | packet (payload : List Nat) (rssi : Int) (snr : ℚ)
  | noPacket
  deriving DecidableEq, Repr

/-- The report stage of `echo_tx_with_payload` (main.c 560-573) for the last
receive return code `i32_ret`, the buffer `rx_buf` and the length `rx_len`. -/
def echo_tx_with_payload_report (i32_ret : Int) (rx_buf : List Nat) (rx_len : Nat) :
    Option EchoTxReport :=
  if i32_ret = 0 ∧ rx_len > 0 then do
    let payload ← readRange rx_buf 3 ((rx_len : Int) - 2)
    let r ← readByte rx_buf ((rx_len : Int) - 2)
    let s ← readByte rx_buf ((rx_len : Int) - 1)
    pure (.packet payload (rssiOf r) (snrOf s))
  else
    pure .noPacket

/-- What `echo_test_mode` prints after its receive attempts: the source id of
`Rx(%3d)`, the characters of the `%c` loop and the `rssi`/`snr` values, or the
line "Rx(%3d): no packet" with the counter value it shows. -/
inductive EchoTestReport where
  | packet (source_id : Nat) (payload : List Nat) (rssi : Int) (snr : ℚ)
  | noPacket (cnt : Int)
  deriving DecidableEq, Repr

/-- The report stage of `echo_test_mode` (main.c 273-286); `cnt` is
`test_buf.cnt` at that point. -/
def echo_test_report (i32_ret : Int) (rx_buf : List Nat) (rx_len : Nat) (cnt : Int) :
    Option EchoTestReport :=
  if i32_ret = 0 ∧ rx_len > 0 then do
    let hi ← readByte rx_buf 4
    let lo ← readByte rx_buf 3
    let payload ← readRange rx_buf 5 ((rx_len : Int) - 2)
    let r ← readByte rx_buf ((rx_len : Int) - 2)
    let s ← readByte rx_buf ((rx_len : Int) - 1)
    pure (.packet ((hi <<< 8) ||| lo) payload (rssiOf r) (snrOf s))
  else
    pure (.noPacket cnt)

/-- The values `rx_mode_cont` prints for a received frame: the length of the
"Received %d byte packet" header, RSSI, SNR, the frequency error when it is
requested, and the bytes of the payload loop (shown as characters or as
`0x%02x` according to `rx_payload_is_hex`). -/
structure ContReport where
  length : Int
  rssi : Int
  snr : ℚ
  frequency_error_hz : Option Int
  payload : List Nat
  deriving DecidableEq, Repr

/-- The report stage of one iteration of `rx_mode_cont` (main.c 424-454) for
the receive return code `rv`; the inner `none` is the empty `else` branch,
which prints nothing. -/
def rx_mode_cont_report (rv : Int) (rx_buf : List Nat) (rx_len : Nat) (has_freq_err : Nat) :
    Option (Option ContReport) :=
  if rv = 0 ∧ rx_len > 0 then
    if 1 = has_freq_err then do
      let b0 ← readByte rx_buf 0
      let b1 ← readByte rx_buf 1
      let b2 ← readByte rx_buf 2
      let f0 ← readByte rx_buf 3
      let f1 ← readByte rx_buf 4
      let f2 ← readByte rx_buf 5
      let f3 ← readByte rx_buf 6
      let payload ← readRange rx_buf 7 rx_len
      pure (some
        { length := (rx_len : Int) - 7, rssi := int16_le b0 b1, snr := snrOf b2,
          frequency_error_hz := some (int32_le f0 f1 f2 f3), payload := payload })
    else do
      let b0 ← readByte rx_buf 0
      let b1 ← readByte rx_buf 1
      let b2 ← readByte rx_buf 2
      let payload ← readRange rx_buf 3 rx_len
      pure (some
        { length := (rx_len : Int) - 3, rssi := int16_le b0 b1, snr := snrOf b2,
          frequency_error_hz := none, payload := payload })
  else
    pure none


/-! ## `print_irq_flags_text` (main.c 460-523) -/

/-- The fourteen constants `IRQ_FLAGS_*` tested by `print_irq_flags_text`.
They are defined in the header `ll_ifc_consts.h`, which is not among the
sources at hand, so their values are a parameter of the embedding. -/
structure IrqFlagsConsts where
  IRQ_FLAGS_ASSERT : Nat
  IRQ_FLAGS_APP_TOKEN_ERROR : Nat
  IRQ_FLAGS_CRYPTO_ERROR : Nat
  IRQ_FLAGS_DOWNLINK_REQUEST_ACK : Nat
  IRQ_FLAGS_INITIALIZATION_COMPLETE : Nat
  IRQ_FLAGS_APP_TOKEN_CONFIRMED : Nat
  IRQ_FLAGS_CRYPTO_ESTABLISHED : Nat
  IRQ_FLAGS_DISCONNECTED : Nat
  IRQ_FLAGS_CONNECTED : Nat
  IRQ_FLAGS_RX_DONE : Nat
  IRQ_FLAGS_TX_ERROR : Nat
  IRQ_FLAGS_TX_DONE : Nat
  IRQ_FLAGS_RESET : Nat
  IRQ_FLAGS_WDOG_RESET : Nat
  deriving DecidableEq, Repr

/-- The function `print_irq_flags_text(uint32_t flags)`: the strings handed to
`printf`, in the order of the calls. -/
def print_irq_flags_text (k : IrqFlagsConsts) (flags : Nat) : List String :=
  (if k.IRQ_FLAGS_ASSERT &&& flags ≠ 0 then ["[IRQ_FLAGS_ASSERT]"] else []) ++
  (if k.IRQ_FLAGS_APP_TOKEN_ERROR &&& flags ≠ 0 then ["[IRQ_FLAGS_APP_TOKEN_ERROR]"] else []) ++
  (if k.IRQ_FLAGS_CRYPTO_ERROR &&& flags ≠ 0 then ["[IRQ_FLAGS_CRYPTO_ERROR]"] else []) ++
  (if k.IRQ_FLAGS_DOWNLINK_REQUEST_ACK &&& flags ≠ 0 then
    ["[IRQ_FLAGS_DOWNLINK_REQUEST_ACK]"] else []) ++
  (if k.IRQ_FLAGS_INITIALIZATION_COMPLETE &&& flags ≠ 0 then
    ["[IRQ_FLAGS_INITIALIZATION_COMPLETE]"] else []) ++
  (if k.IRQ_FLAGS_APP_TOKEN_CONFIRMED &&& flags ≠ 0 then
    ["[IRQ_FLAGS_APP_TOKEN_CONFIRMED]"] else []) ++
  (if k.IRQ_FLAGS_CRYPTO_ESTABLISHED &&& flags ≠ 0 then
    ["[IRQ_FLAGS_CRYPTO_ESTABLISHED]"] else []) ++
  (if k.IRQ_FLAGS_DISCONNECTED &&& flags ≠ 0 then ["[IRQ_FLAGS_DISCONNECTED]"] else []) ++
  (if k.IRQ_FLAGS_CONNECTED &&& flags ≠ 0 then ["[IRQ_FLAGS_CONNECTED]"] else []) ++
  (if k.IRQ_FLAGS_RX_DONE &&& flags ≠ 0 then ["[IRQ_FLAGS_RX_DONE]"] else []) ++
  (if k.IRQ_FLAGS_TX_ERROR &&& flags ≠ 0 then ["[IRQ_FLAGS_TX_ERROR]"] else []) ++
  (if k.IRQ_FLAGS_TX_DONE &&& flags ≠ 0 then ["[IRQ_FLAGS_TX_DONE]"] else []) ++
  (if k.IRQ_FLAGS_RESET &&& flags ≠ 0 then ["[IRQ_FLAGS_RESET]"] else []) ++
  (if k.IRQ_FLAGS_WDOG_RESET &&& flags ≠ 0 then ["[IRQ_FLAGS_WDOG_RESET]"] else []) ++
  (if flags ≠ 0 then ["\n"] else [])

/-- The fixed table of (constant, name) pairs, in the order of the fourteen
tests of `print_irq_flags_text`. -/
def irqFlagTable (k : IrqFlagsConsts) : List (Nat × String) :=
  [ (k.IRQ_FLAGS_ASSERT, "[IRQ_FLAGS_ASSERT]"),
    (k.IRQ_FLAGS_APP_TOKEN_ERROR, "[IRQ_FLAGS_APP_TOKEN_ERROR]"),
    (k.IRQ_FLAGS_CRYPTO_ERROR, "[IRQ_FLAGS_CRYPTO_ERROR]"),
    (k.IRQ_FLAGS_DOWNLINK_REQUEST_ACK, "[IRQ_FLAGS_DOWNLINK_REQUEST_ACK]"),
    (k.IRQ_FLAGS_INITIALIZATION_COMPLETE, "[IRQ_FLAGS_INITIALIZATION_COMPLETE]"),
    (k.IRQ_FLAGS_APP_TOKEN_CONFIRMED, "[IRQ_FLAGS_APP_TOKEN_CONFIRMED]"),
    (k.IRQ_FLAGS_CRYPTO_ESTABLISHED, "[IRQ_FLAGS_CRYPTO_ESTABLISHED]"),
    (k.IRQ_FLAGS_DISCONNECTED, "[IRQ_FLAGS_DISCONNECTED]"),
    (k.IRQ_FLAGS_CONNECTED, "[IRQ_FLAGS_CONNECTED]"),
    (k.IRQ_FLAGS_RX_DONE, "[IRQ_FLAGS_RX_DONE]"),
    (k.IRQ_FLAGS_TX_ERROR, "[IRQ_FLAGS_TX_ERROR]"),
    (k.IRQ_FLAGS_TX_DONE, "[IRQ_FLAGS_TX_DONE]"),
    (k.IRQ_FLAGS_RESET, "[IRQ_FLAGS_RESET]"),
    (k.IRQ_FLAGS_WDOG_RESET, "[IRQ_FLAGS_WDOG_RESET]") ]

/-- The names of the table entries whose constant has a bit in common with
the mask, in table order. -/
def irqNames (k : IrqFlagsConsts) (flags : Nat) : List String :=
  ((irqFlagTable k).filter (fun e => decide (e.1 &&& flags ≠ 0))).map Prod.snd

/-- Every constant of the table is a single bit of a 32-bit word. -/
def SingleBits (k : IrqFlagsConsts) : Prop :=
  ∀ e ∈ irqFlagTable k, ∃ j, j < 32 ∧ e.1 = 2 ^ j

/-- A sample assignment of the fourteen constants to distinct single bits of a
32-bit word. -/
def sampleIrqFlags : IrqFlagsConsts :=
  { IRQ_FLAGS_ASSERT := 0x80000000
    IRQ_FLAGS_APP_TOKEN_ERROR := 0x00200000
    IRQ_FLAGS_CRYPTO_ERROR := 0x00100000
    IRQ_FLAGS_DOWNLINK_REQUEST_ACK := 0x00080000
    IRQ_FLAGS_INITIALIZATION_COMPLETE := 0x00040000
    IRQ_FLAGS_APP_TOKEN_CONFIRMED := 0x00020000
    IRQ_FLAGS_CRYPTO_ESTABLISHED := 0x00010000
    IRQ_FLAGS_DISCONNECTED := 0x00002000
    IRQ_FLAGS_CONNECTED := 0x00001000
    IRQ_FLAGS_RX_DONE := 0x00000100
    IRQ_FLAGS_TX_ERROR := 0x00000020
    IRQ_FLAGS_TX_DONE := 0x00000010
    IRQ_FLAGS_RESET := 0x00000002
    IRQ_FLAGS_WDOG_RESET := 0x00000001 }


/-! ## `timeval_diff_ms` (main.c 386-394) -/

/-- The C `struct timeval`: seconds and microseconds. -/
structure Timeval where
  tv_sec : Int
  tv_usec : Int
  deriving DecidableEq, Repr

/-- The function `timeval_diff_ms(begin, end)`. The subtractions and the sum
are done in `time_t`/`suseconds_t`, taken to be 64-bit so that they do not
overflow; `/` is the C division, which truncates towards zero; the `return`
converts to `uint32_t`, that is modulo `2^32`. -/
def timeval_diff_ms (tv_begin tv_end : Timeval) : Nat :=
  let tv_sec := tv_end.tv_sec - tv_begin.tv_sec
  let tv_usec := tv_end.tv_usec - tv_begin.tv_usec
  ((tv_sec * 1000 + Int.tdiv tv_usec 1000) % 4294967296).toNat

/-- The exact elapsed time from `tv_begin` to `tv_end`, in milliseconds. -/
def elapsed_ms (tv_begin tv_end : Timeval) : ℚ :=
  (((tv_end.tv_sec - tv_begin.tv_sec) * 1000000 + (tv_end.tv_usec - tv_begin.tv_usec) : Int) : ℚ)
    / 1000

/-! ## The transport and the output of the command loops

The library functions `ll_packet_send_queue`, `ll_packet_recv`,
`ll_packet_recv_cont` and the clock are external to `main.c`. They are an
environment that gives, for each function, the outcome of its n-th call. The
output of a command is the sequence of its calls, waits and printed lines. -/

/-- What a call `ll_packet_recv(.., rx_buf, RX_BUF_LEN, &rx_len)` or
`ll_packet_recv_cont(rx_buf, RX_BUF_LEN, &rx_len, ..)` leaves to its caller:
the return value as stored in the caller's variable and the contents of the
out-parameters `rx_buf` and `rx_len` after the call. -/
structure RecvResult where
  rv : Int
  rx_buf : List Nat
  rx_len : Nat
  deriving DecidableEq, Repr

/-- The environment of a run: the outcome of the n-th call (from 0) of each
external function. For `ll_packet_send_queue` it is the return value as stored
in the caller's variable (`int8_t` in `echo_test_mode`, `int32_t` in
`echo_tx_with_payload`). -/
structure Env where
  gettimeofday : Nat → Timeval
  ll_packet_send_queue : Nat → Int
  ll_packet_recv : Nat → RecvResult
  ll_packet_recv_cont : Nat → RecvResult

/-- One observable action of a command. -/
inductive Event where
  /-- A call `ll_packet_send_queue(buf, len)` with the `len` bytes sent. -/
  | call_send_queue (payload : List Nat)
  /-- A call of `ll_packet_recv`. -/
  | call_recv
  /-- A call of `ll_packet_recv_cont` with its last argument. -/
  | call_recv_cont (freq_error_requested : Bool)
  /-- The wait `SLEEP(x)`, in seconds. -/
  | sleep_s (x : Nat)
  /-- The wait `MS_SLEEP(x)`, in milliseconds. -/
  | sleep_ms (x : Nat)
  /-- The line printed by `print_ll_ifc_error(label, ret_val)`. -/
  | ifc_error (label : String) (ret_val : Int)
  /-- The line "Tx(%3d): %s" of `echo_test_mode`, with the counter shown. -/
  | tx_line (cnt : Int)
  /-- The "Rx(%3d): ..." line of `echo_test_mode`. -/
  | echo_test_rx (r : EchoTestReport)
  /-- The line "Failed to send packet: %d". -/
  | failed_to_send (code : Int)
  /-- The line "Message sent (send queue now full)". -/
  | message_sent_queue_full
  /-- The line "Message sent". -/
  | message_sent
  /-- The "Rx: ..." line of `echo_tx_with_payload`. -/
  | echo_tx_rx (r : EchoTxReport)
  /-- The "Received %d byte packet RSSI= ..." lines of `rx_mode_cont`. -/
  | cont_rx (r : ContReport)
  /-- The lines "Received %d byte packet:" and the bytes of `rx_mode_single`. -/
  | single_rx_packet (rx_len : Nat) (bytes : List Nat)
  /-- The line "No packets received" of `rx_mode_single`. -/
  | single_rx_none
  deriving DecidableEq, Repr

/-- The function `print_ll_ifc_error(label, ret_val)` (main.c 65-134): it
prints only for a negative `ret_val`. -/
def print_ll_ifc_error (label : String) (ret_val : Int) : List Event :=
  if ret_val < 0 then [.ifc_error label ret_val] else []

/-- The receive stage shared by `echo_test_mode` (main.c 257-271, grace wait
`SLEEP(5)`) and `echo_tx_with_payload` (main.c 545-558, grace wait `SLEEP(1)`):
the result the report stage will look at, the number of receive calls made so
far, and the output of the stage. -/
structure RecvStage where
  res : RecvResult
  nrecv : Nat
  out : List Event
  deriving DecidableEq, Repr

/-- The statement `if(LL_IFC_NACK_NODATA != -i32_ret) print_ll_ifc_error(
"ll_packet_recv_cont", i32_ret);` that follows each call of
`ll_packet_recv_cont`. `NODATA` is the constant `LL_IFC_NACK_NODATA` of the
header `ll_ifc_consts.h`, which is not among the sources. -/
def recv_cont_error (NODATA : Int) (i32_ret : Int) : List Event :=
  if NODATA ≠ -i32_ret then print_ll_ifc_error "ll_packet_recv_cont" i32_ret else []

/-- The receive stage: one call of `ll_packet_recv_cont` with its error
statement and, `if (i32_ret == 0 && rx_len == 0)`, the grace wait and a second
call handled the same way; `n` is the number of receive calls made before the
stage. -/
def recv_stage (NODATA : Int) (recv_cont : Nat → RecvResult) (n grace : Nat) : RecvStage :=
  let r1 := recv_cont n
  let out1 := [Event.call_recv_cont false] ++ recv_cont_error NODATA r1.rv
  if r1.rv = 0 ∧ r1.rx_len = 0 then
    let r2 := recv_cont (n + 1)
    { res := r2, nrecv := n + 2,
      out := out1 ++ [Event.sleep_s grace, Event.call_recv_cont false] ++
        recv_cont_error NODATA r2.rv }
  else
    { res := r1, nrecv := n + 1, out := out1 }

/-! ## `echo_test_mode` (main.c 229-290) -/

/-- The conversion of an `int` to `short` (16 bits, two's complement). -/
def int16_wrap (x : Int) : Int :=
  (x + 32768) % 65536 - 32768

/-- The bytes copied by `memcpy(tx_buf, &test_buf, len)`: the two bytes of
`test_buf.cnt` (little-endian host) and the ten characters "Link-Labs!". -/
def echo_test_payload (cnt : Int) : List Nat :=
  [(cnt % 65536).toNat % 256, (cnt % 65536).toNat / 256] ++
    [76, 105, 110, 107, 45, 76, 97, 98, 115, 33]

/-- The state of `echo_test_mode` between iterations: the counter
`test_buf.cnt`, the number of send and receive calls made, and the output so
far. -/
structure EchoTestState where
  cnt : Int
  nsend : Nat
  nrecv : Nat
  out : List Event
  deriving DecidableEq, Repr

/-- The state after `test_buf.cnt = 0;`, before the loop. -/
def echo_test_init : EchoTestState :=
  { cnt := 0, nsend := 0, nrecv := 0, out := [] }

/-- The send stage of one iteration of `echo_test_mode` (main.c 242-254): the
call and the line it prints for the return code `i32_ret`. -/
def echo_test_send_stage (cnt : Int) (i32_ret : Int) : List Event :=
  [Event.call_send_queue (echo_test_payload cnt)] ++
    (if i32_ret ≠ 0 then print_ll_ifc_error "ll_packet_send_queue" i32_ret
     else [Event.tx_line cnt])

/-- The end of an iteration of `echo_test_mode` (main.c 273-288): the "Rx"
line for the outcome `rep` of the report stage and the wait `SLEEP(1)`; `none`
when the report stage indexes outside `rx_buf`. -/
def echo_test_finish (cnt : Int) (nsend nrecv : Nat) (out : List Event) :
    Option EchoTestReport → Option EchoTestState
  | none => none
  | some rep =>
    some { cnt := cnt, nsend := nsend, nrecv := nrecv,
           out := out ++ [Event.echo_test_rx rep, Event.sleep_s 1] }

/-- One iteration of the `while (1)` loop of `echo_test_mode`. -/
def echo_test_iteration (NODATA : Int) (env : Env) (s : EchoTestState) : Option EchoTestState :=
  let i32_ret := env.ll_packet_send_queue s.nsend
  let out1 := s.out ++ echo_test_send_stage s.cnt i32_ret
  let cnt := int16_wrap (s.cnt + 1)
  let st := recv_stage NODATA env.ll_packet_recv_cont s.nrecv 5
  echo_test_finish cnt (s.nsend + 1) st.nrecv (out1 ++ st.out)
    (echo_test_report st.res.rv st.res.rx_buf st.res.rx_len cnt)

/-- The first `k` iterations of `echo_test_mode` from session start. -/
def echo_test_mode (NODATA : Int) (env : Env) : Nat → Option EchoTestState
  | 0 => some echo_test_init
  | k + 1 =>
    match echo_test_mode NODATA env k with
    | none => none
    | some s => echo_test_iteration NODATA env s

/-! ## `echo_tx_with_payload` (main.c 525-574) -/

/-- How a command ends: it returns, it calls `exit(EXIT_FAILURE)`, or its
report stage indexes outside `rx_buf` (undefined behaviour). -/
inductive RunEnd where
  | returned
  | exit_failure
  | undefined
  deriving DecidableEq, Repr

/-- The end of `echo_tx_with_payload` (main.c 560-573): the "Rx" line for the
outcome `rep` of the report stage. -/
def echo_tx_finish (out : List Event) : Option EchoTxReport → List Event × RunEnd
  | none => (out, RunEnd.undefined)
  | some rep => (out ++ [Event.echo_tx_rx rep], RunEnd.returned)

/-- The line printed by `echo_tx_with_payload` for an accepted send (main.c
538-543). -/
def message_sent_line (i32_ret : Int) : Event :=
  if i32_ret = 0 then Event.message_sent_queue_full else Event.message_sent

/-- The function `echo_tx_with_payload(buf, len)`: its output and its end. -/
def echo_tx_with_payload (NODATA : Int) (env : Env) (buf : List Nat) (len : Nat) :
    List Event × RunEnd :=
  let i32_ret := env.ll_packet_send_queue 0
  let out0 := [Event.call_send_queue (buf.take len)]
  if i32_ret < 0 ∨ i32_ret > 1 then
    (out0 ++ [Event.failed_to_send i32_ret], RunEnd.exit_failure)
  else
    let out1 := out0 ++ [message_sent_line i32_ret]
    let st := recv_stage NODATA env.ll_packet_recv_cont 0 1
    echo_tx_finish (out1 ++ st.out)
      (echo_tx_with_payload_report st.res.rv st.res.rx_buf st.res.rx_len)

/-! ## `rx_mode_single` (main.c 294-331) -/

/-- The function `rx_mode_single()`; `none` when the print loop indexes outside
`rx_buf`. The bytes of the packet are shown as characters or as `0x%02x`
according to `rx_payload_is_hex`. -/
def rx_mode_single (env : Env) : Option (List Event) :=
  let r1 := env.ll_packet_recv 0
  let out1 := [Event.call_recv] ++ print_ll_ifc_error "ll_packet_recv" r1.rv ++ [Event.sleep_s 1]
  let r2 := env.ll_packet_recv 1
  let out2 := out1 ++ [Event.call_recv] ++ print_ll_ifc_error "ll_packet_recv" r2.rv
  if r2.rx_len > 0 then
    match readRange r2.rx_buf 0 (r2.rx_len : Int) with
    | none => none
    | some bytes => some (out2 ++ [Event.single_rx_packet r2.rx_len bytes])
  else
    some (out2 ++ [Event.single_rx_none])

/-! ## `rx_mode_cont` (main.c 396-458) -/

/-- A receive outcome the library can leave: `rx_buf` is the array of
`RX_BUF_LEN` bytes and `rx_len` is at most its size. -/
def RecvResult.WellFormed (r : RecvResult) : Prop :=
  r.rx_buf.length = RX_BUF_LEN ∧ r.rx_len ≤ RX_BUF_LEN

/-- The events printed by `rx_mode_cont` for the outcome of its report stage. -/
def cont_report_events : Option ContReport → List Event
  | some p => [Event.cont_rx p]
  | none => []

/-- The state of `rx_mode_cont` between iterations: the number of clock and
receive calls made and the output so far. -/
structure ContState where
  nclock : Nat
  nrecv : Nat
  out : List Event
  deriving DecidableEq, Repr

/-- The exit test `if (receive_time_ms && num_ms > receive_time_ms) break;` at
the head of an iteration (main.c 410-415). -/
def rx_mode_cont_exit (receive_time_ms : Nat) (tv_begin tv_now : Timeval) : Bool :=
  decide (receive_time_ms ≠ 0 ∧ timeval_diff_ms tv_begin tv_now > receive_time_ms)

/-- What one pass through the body of the `while (1)` of `rx_mode_cont` ends
in. -/
inductive ContStep where
  /-- The `break` of the exit test. -/
  | left (s : ContState)
  /-- The end of the body: the loop goes on. -/
  | goes_on (s : ContState)
  /-- The report stage indexed outside `rx_buf`. -/
  | undefined
  deriving DecidableEq, Repr

/-- One iteration of the `while (1)` loop of `rx_mode_cont`. -/
def rx_mode_cont_iteration (NODATA : Int) (env : Env) (receive_time_ms has_freq_err : Nat)
    (tv_begin : Timeval) (s : ContState) : ContStep :=
  let tv_now := env.gettimeofday s.nclock
  if rx_mode_cont_exit receive_time_ms tv_begin tv_now then
    .left { s with nclock := s.nclock + 1 }
  else
    let r := env.ll_packet_recv_cont s.nrecv
    let out1 := s.out ++ [Event.sleep_ms 50, Event.call_recv_cont (decide (1 = has_freq_err))] ++
      (if NODATA ≠ -r.rv then print_ll_ifc_error "ll_packet_recv_cont" r.rv else [])
    match rx_mode_cont_report r.rv r.rx_buf r.rx_len has_freq_err with
    | none => .undefined
    | some rep =>
      .goes_on { nclock := s.nclock + 1, nrecv := s.nrecv + 1,
                 out := out1 ++ cont_report_events rep ++ [Event.sleep_ms 20] }

/-- The loop of `rx_mode_cont` run for at most `n` iterations from state `s`:
`goes_on` when the loop has not left after `n` iterations. -/
def rx_mode_cont_loop (NODATA : Int) (env : Env) (receive_time_ms has_freq_err : Nat)
    (tv_begin : Timeval) : Nat → ContState → ContStep
  | 0, s => .goes_on s
  | n + 1, s =>
    match rx_mode_cont_iteration NODATA env receive_time_ms has_freq_err tv_begin s with
    | .goes_on s1 => rx_mode_cont_loop NODATA env receive_time_ms has_freq_err tv_begin n s1
    | other => other

/-- The conversion `(uint32_t)buf[i]` of a plain `char` holding the byte `b`:
a signed `char` is sign-extended, an unsigned one is not. Whether plain `char`
is signed is fixed by the platform. -/
def char_to_uint32 (char_is_signed : Bool) (b : Nat) : Nat :=
  if char_is_signed = true ∧ 128 ≤ b % 256 then b % 256 + 0xFFFFFF00 else b % 256

/-- The four assignments to `irq_flags_to_clear` (main.c 1092-1095) on the
decoded buffer `buf`; each shift is done in `uint32_t`. -/
def irq_flags_to_clear (char_is_signed : Bool) (buf : List Nat) : Nat :=
  let m0 := char_to_uint32 char_is_signed (buf.getD 3 0)
  let m1 := m0 ||| (char_to_uint32 char_is_signed (buf.getD 2 0) <<< 8) % 4294967296
  let m2 := m1 ||| (char_to_uint32 char_is_signed (buf.getD 1 0) <<< 16) % 4294967296
  m2 ||| (char_to_uint32 char_is_signed (buf.getD 0 0) <<< 24) % 4294967296

/-- The mask that `main` passes to `ll_irq_flags` for the argument `buf` of
`--irq_flags_clear`; `none` when `buffer_to_hex` exits or when the length test
`len != 4` prints "Argument must be 32-bit hex" instead of making the call. -/
def irq_flags_clear_mask (char_is_signed : Bool) (buf : List Nat) : Option Nat :=
  let len := (strlen buf / 2) % 256
  match buffer_to_hex buf with
  | .returned _ b => if len ≠ 4 then none else some (irq_flags_to_clear char_is_signed b)
  | _ => none

/-! ## Reading the output -/

/-- A call of a receive function of the library. -/
def Event.isRecvCall : Event → Bool
  | .call_recv => true
  | .call_recv_cont _ => true
  | _ => false

/-- The line "Rx(%3d): no packet" of `echo_test_mode`. -/
def Event.isNoPacket : Event → Bool
  | .echo_test_rx (.noPacket _) => true
  | _ => false

/-- A packet report of `rx_mode_single`: the received bytes or the line "No
packets received". -/
def Event.isSingleRx : Event → Bool
  | .single_rx_packet _ _ => true
  | .single_rx_none => true
  | _ => false

/-- A receive outcome without data: a nonzero return code, or zero bytes. -/
def RecvResult.NoData (r : RecvResult) : Prop :=
  r.rv ≠ 0 ∨ r.rx_len = 0

/-! ## Sample environment -/

/-- A sample value for the constant `LL_IFC_NACK_NODATA`. -/
def sampleNoData : Int := 11

/-- A sample transport that accepts every send (return code 0) and never
returns data: its receive calls return, in turn, success with zero bytes and
the no-data code for `sampleNoData`; its clock advances a second a reading. -/
def sampleEnv : Env :=
  { gettimeofday := fun n => { tv_sec := n, tv_usec := 0 }
    ll_packet_send_queue := fun _ => 0
    ll_packet_recv := fun _ => { rv := 0, rx_buf := List.replicate 255 0, rx_len := 0 }
    ll_packet_recv_cont := fun n =>
      if n % 2 = 0 then { rv := 0, rx_buf := List.replicate 255 0, rx_len := 0 }
      else { rv := -11, rx_buf := List.replicate 255 0, rx_len := 0 } }

/-- The sample transport with every send returning 1 (accepted, room left in
the queue). -/
def roomLeftEnv : Env :=
  { sampleEnv with ll_packet_send_queue := fun _ => 1 }

/-- A sample transport whose first call of `ll_packet_recv_cont` returns the
no-data code for `sampleNoData` and whose later calls return a nine-byte
frame. -/
def noDataFirstEnv : Env :=
  { sampleEnv with
    ll_packet_recv_cont := fun n =>
      if n = 0 then { rv := -11, rx_buf := List.replicate 255 0, rx_len := 0 }
      else { rv := 0, rx_buf := [1, 2, 3, 0x34, 0x12, 65, 66, 0xC8, 0xF0] ++ List.replicate 246 0,
             rx_len := 9 } }

/-- A sample transport for `rx_mode_single`: the first call of `ll_packet_recv`
delivers a five-byte packet, the second times out and leaves the length 0 with
the first packet still in the buffer. -/
def staleEnv : Env :=
  { sampleEnv with
    ll_packet_recv := fun n =>
      if n = 0 then { rv := 0, rx_buf := [83, 84, 65, 76, 69] ++ List.replicate 250 0, rx_len := 5 }
      else { rv := -106, rx_buf := [83, 84, 65, 76, 69] ++ List.replicate 250 0, rx_len := 0 } }

/-- A sample receive buffer of `RX_BUF_LEN` bytes: seven bytes of an earlier
frame followed by 248 bytes 0x55. -/
def shortFrameBuf : List Nat :=
  [0x18, 0xFC, 0xF8, 0x60, 0x79, 0xFE, 0xFF] ++ List.replicate 248 0x55

/-! # Lemmas and theorems -/

/-! ## Lemmas on the C library model -/

theorem strlen_append_zero (t rest : List Nat) (h : ∀ c ∈ t, c ≠ 0) :
    strlen (t ++ 0 :: rest) = t.length := by
  induction t with
  | nil => simp [strlen]
  | cons a t ih =>
    have ha : a ≠ 0 := h a (List.mem_cons_self a t)
    have := ih (fun c hc => h c (List.mem_cons_of_mem a hc))
    simp [strlen, ha, this]

theorem strlen_cstr (t : List Nat) (h : ∀ c ∈ t, c ≠ 0) : strlen (cstr t) = t.length :=
  strlen_append_zero t [] h

theorem isHexChar_ne_zero {c : Nat} (h : isHexChar c) : c ≠ 0 := by
  unfold isHexChar at h
  omega

theorem hexval_lt {c : Nat} : hexval c < 16 := by
  unfold hexval
  split_ifs <;> omega

theorem getD_set_eq (l : List Nat) (j p v : Nat) :
    (l.set j v).getD p 0 = if j = p ∧ j < l.length then v else l.getD p 0 := by
  simp only [List.getD_eq_getElem?_getD, List.getElem?_set]
  by_cases hjp : j = p
  · subst hjp
    by_cases hj : j < l.length
    · simp [hj]
    · simp [hj, List.getElem?_eq_none (Nat.le_of_not_lt hj)]
  · simp [hjp]

theorem getD_zero_of_le (l : List Nat) (p : Nat) (h : l.length ≤ p) : l.getD p 0 = 0 := by
  simp [List.getD_eq_getElem?_getD, List.getElem?_eq_none h]

theorem lt_length_of_isHexChar (l : List Nat) (p : Nat) (h : isHexChar (l.getD p 0)) :
    p < l.length := by
  by_contra hp
  rw [getD_zero_of_le l p (Nat.le_of_not_lt hp)] at h
  exact isHexChar_ne_zero h rfl

theorem shl4_byte (x : Nat) (hx : x < 16) : (x <<< 4) % 256 = 16 * x := by
  rw [Nat.shiftLeft_eq]
  omega

theorem lor_nibble (x y : Nat) (hx : x < 16) (hy : y < 16) :
    (16 * x ||| y) % 256 = 16 * x + y := by
  interval_cases x <;> interval_cases y <;> rfl

/-! ## One iteration of the loop -/

theorem hexLoop_step_valid (k i : Nat) (buf : List Nat) (h : isHexChar (buf.getD i 0)) :
    hexLoop (k + 1) i buf = hexLoop k (i + 1) (packNibble buf i (hexval (buf.getD i 0))) := by
  rw [hexLoop]
  generalize buf.getD i 0 = c at h
  unfold isHexChar at h
  simp only [toupper, isdigit, hexval]
  rcases h with h | h | h
  · have h1 : ¬ (97 ≤ c ∧ c ≤ 122) := by omega
    simp only [h1, h, if_false, if_true, and_self, decide_True]
  · have h1 : ¬ (97 ≤ c ∧ c ≤ 122) := by omega
    have h2 : ¬ (48 ≤ c ∧ c ≤ 57) := by omega
    have h3 : c - 65 + 10 = c - 55 := by omega
    simp only [h1, h2, h, h3, if_false, if_true, and_self, decide_False, Bool.false_eq_true]
  · have h1 : (97 ≤ c ∧ c ≤ 122) := by omega
    have h2 : ¬ (48 ≤ c - 32 ∧ c - 32 ≤ 57) := by omega
    have h3 : (65 ≤ c - 32 ∧ c - 32 ≤ 70) := by omega
    have h4 : ¬ (48 ≤ c ∧ c ≤ 57) := by omega
    have h5 : ¬ (65 ≤ c ∧ c ≤ 70) := by omega
    have h6 : c - 32 - 65 + 10 = c - 87 := by omega
    simp only [h1, h2, h3, h4, h5, h, h6, if_false, if_true, and_self, decide_False,
      Bool.false_eq_true]

theorem hexLoop_step_invalid (k i : Nat) (buf : List Nat) (h : ¬ isHexChar (buf.getD i 0)) :
    hexLoop (k + 1) i buf = .error buf := by
  rw [hexLoop]
  generalize buf.getD i 0 = c at h
  unfold isHexChar at h
  simp only [toupper, isdigit]
  by_cases h1 : (97 ≤ c ∧ c ≤ 122)
  · have h2 : ¬ (48 ≤ c - 32 ∧ c - 32 ≤ 57) := by omega
    have h3 : ¬ (65 ≤ c - 32 ∧ c - 32 ≤ 70) := by omega
    simp only [h1, h2, h3, if_false, if_true, and_self, decide_False, Bool.false_eq_true]
  · have h2 : ¬ (48 ≤ c ∧ c ≤ 57) := by omega
    have h3 : ¬ (65 ≤ c ∧ c ≤ 70) := by omega
    simp only [h1, h2, h3, if_false, if_true, and_self, decide_False, Bool.false_eq_true]

/-! ## The loop invariant -/

theorem hexInv_init (buf0 : List Nat) : HexInv buf0 0 buf0 := by
  refine ⟨rfl, fun p => ?_⟩
  simp [hexStateAt]

theorem hexInv_read (buf0 b : List Nat) (i : Nat) (hinv : HexInv buf0 i b) :
    b.getD i 0 = buf0.getD i 0 := by
  rw [hinv.2 i]
  unfold hexStateAt
  have h1 : ¬ (2 * i + 1 < i) := by omega
  have h2 : ¬ (2 * i < i) := by omega
  rw [if_neg h1, if_neg h2]

theorem hexInv_step (buf0 b : List Nat) (i : Nat) (hinv : HexInv buf0 i b)
    (hc : isHexChar (buf0.getD i 0)) :
    HexInv buf0 (i + 1) (packNibble b i (hexval (buf0.getD i 0))) := by
  have hi : i < buf0.length := lt_length_of_isHexChar buf0 i hc
  obtain ⟨hlen, hget⟩ := hinv
  have hx : hexval (buf0.getD i 0) < 16 := hexval_lt
  unfold packNibble
  rw [Nat.and_one_is_mod]
  by_cases hodd : i % 2 ≠ 0
  · rw [if_pos hodd]
    obtain ⟨q, rfl⟩ : ∃ q, i = 2 * q + 1 := ⟨i / 2, by omega⟩
    have hq : (2 * q + 1 - 1) / 2 = q := by omega
    rw [hq]
    have hbq : b.getD q 0 = 16 * hexval (buf0.getD (2 * q) 0) := by
      rw [hget q]
      unfold hexStateAt
      have h1 : ¬ (2 * q + 1 < 2 * q + 1) := by omega
      have h2 : 2 * q < 2 * q + 1 := by omega
      rw [if_neg h1, if_pos h2]
    rw [hbq, lor_nibble _ _ hexval_lt hx]
    refine ⟨by simp [hlen], fun p => ?_⟩
    rw [getD_set_eq, hget p]
    unfold hexStateAt
    by_cases hp : q = p
    · subst hp
      have h0 : q < b.length := by omega
      have h1 : 2 * q + 1 < 2 * q + 1 + 1 := by omega
      rw [if_pos ⟨rfl, h0⟩, if_pos h1]
    · have h0 : ¬ (q = p ∧ q < b.length) := fun h => hp h.1
      rw [if_neg h0]
      by_cases h1 : 2 * p + 1 < 2 * q + 1
      · have h2 : 2 * p + 1 < 2 * q + 1 + 1 := by omega
        rw [if_pos h1, if_pos h2]
      · have h2 : ¬ (2 * p + 1 < 2 * q + 1 + 1) := by omega
        have h3 : ¬ (2 * p < 2 * q + 1) := by omega
        have h4 : ¬ (2 * p < 2 * q + 1 + 1) := by omega
        rw [if_neg h1, if_neg h2, if_neg h3, if_neg h4]
  · rw [if_neg hodd]
    obtain ⟨q, rfl⟩ : ∃ q, i = 2 * q := ⟨i / 2, by omega⟩
    have hq : (2 * q) / 2 = q := by omega
    rw [hq, shl4_byte _ hx]
    refine ⟨by simp [hlen], fun p => ?_⟩
    rw [getD_set_eq, hget p]
    unfold hexStateAt
    by_cases hp : q = p
    · subst hp
      have h0 : q < b.length := by omega
      have h1 : ¬ (2 * q + 1 < 2 * q + 1) := by omega
      have h2 : 2 * q < 2 * q + 1 := by omega
      rw [if_pos ⟨rfl, h0⟩, if_neg h1, if_pos h2]
    · have h0 : ¬ (q = p ∧ q < b.length) := fun h => hp h.1
      rw [if_neg h0]
      by_cases h1 : 2 * p + 1 < 2 * q
      · have h2 : 2 * p + 1 < 2 * q + 1 := by omega
        rw [if_pos h1, if_pos h2]
      · have h2 : ¬ (2 * p + 1 < 2 * q + 1) := by omega
        have h3 : ¬ (2 * p < 2 * q) := by omega
        have h4 : ¬ (2 * p < 2 * q + 1) := by omega
        rw [if_neg h1, if_neg h2, if_neg h3, if_neg h4]

/-- Running the loop over `m` valid characters ends normally with the
invariant at index `i + m`. -/
theorem hexLoop_valid (buf0 : List Nat) : ∀ (m i : Nat) (b : List Nat),
    HexInv buf0 i b → (∀ p, i ≤ p → p < i + m → isHexChar (buf0.getD p 0)) →
    ∃ out, hexLoop m i b = .ok out ∧ HexInv buf0 (i + m) out := by
  intro m
  induction m with
  | zero =>
    intro i b hinv _
    exact ⟨b, rfl, hinv⟩
  | succ m ih =>
    intro i b hinv hval
    have hc : isHexChar (buf0.getD i 0) := hval i (Nat.le_refl i) (by omega)
    have hread := hexInv_read buf0 b i hinv
    rw [hexLoop_step_valid m i b (hread ▸ hc), hread]
    obtain ⟨out, h1, h2⟩ := ih (i + 1) _ (hexInv_step buf0 b i hinv hc)
      (fun p hp1 hp2 => hval p (by omega) (by omega))
    exact ⟨out, h1, by rwa [show i + (m + 1) = i + 1 + m by omega]⟩

/-- Running the loop over `m` valid characters and then meeting an invalid
one, with iterations left, ends in the invalid-character exit with the
invariant at index `i + m`. -/
theorem hexLoop_invalid (buf0 : List Nat) : ∀ (m r i : Nat) (b : List Nat),
    HexInv buf0 i b → (∀ p, i ≤ p → p < i + m → isHexChar (buf0.getD p 0)) →
    ¬ isHexChar (buf0.getD (i + m) 0) →
    ∃ out, hexLoop (m + r + 1) i b = .error out ∧ HexInv buf0 (i + m) out := by
  intro m
  induction m with
  | zero =>
    intro r i b hinv _ hbad
    have hread := hexInv_read buf0 b i hinv
    refine ⟨b, ?_, hinv⟩
    rw [show 0 + r + 1 = r + 1 by omega]
    exact hexLoop_step_invalid r i b (by rw [hread]; exact hbad)
  | succ m ih =>
    intro r i b hinv hval hbad
    have hc : isHexChar (buf0.getD i 0) := hval i (Nat.le_refl i) (by omega)
    have hread := hexInv_read buf0 b i hinv
    rw [show m + 1 + r + 1 = (m + r + 1) + 1 by omega,
      hexLoop_step_valid (m + r + 1) i b (hread ▸ hc), hread]
    obtain ⟨out, h1, h2⟩ := ih r (i + 1) _ (hexInv_step buf0 b i hinv hc)
      (fun p hp1 hp2 => hval p (by omega) (by omega))
      (by rwa [show i + 1 + m = i + (m + 1) by omega])
    exact ⟨out, h1, by rwa [show i + (m + 1) = i + 1 + m by omega]⟩

/-! ## Lists, position by position -/

theorem getD_cstr (text : List Nat) (p : Nat) : (cstr text).getD p 0 = text.getD p 0 := by
  unfold cstr
  by_cases hp : p < text.length
  · simp [List.getD_eq_getElem?_getD, List.getElem?_append_left hp]
  · have hp1 : text.length ≤ p := Nat.le_of_not_lt hp
    rw [getD_zero_of_le text p hp1]
    by_cases hp2 : p = text.length
    · subst hp2
      simp [List.getD_eq_getElem?_getD]
    · exact getD_zero_of_le _ p (by simp; omega)

theorem getD_drop_eq (l : List Nat) (k p : Nat) : (l.drop k).getD p 0 = l.getD (k + p) 0 := by
  simp [List.getD_eq_getElem?_getD, List.getElem?_drop]

theorem getD_take_eq (l : List Nat) (k p : Nat) (h : p < k) :
    (l.take k).getD p 0 = l.getD p 0 := by
  simp [List.getD_eq_getElem?_getD, List.getElem?_take, h]

theorem ext_getD (l1 l2 : List Nat) (hlen : l1.length = l2.length)
    (h : ∀ p, p < l1.length → l1.getD p 0 = l2.getD p 0) : l1 = l2 := by
  apply List.ext_getElem hlen
  intro n h1 h2
  have := h n h1
  rwa [List.getD_eq_getElem _ _ h1, List.getD_eq_getElem _ _ h2] at this

theorem decodePairs_length : ∀ t : List Nat, (decodePairs t).length = t.length / 2
  | [] => rfl
  | [_] => by simp [decodePairs]
  | _ :: _ :: rest => by
    simp only [decodePairs, List.length_cons, decodePairs_length rest]
    omega

theorem decodePairs_getD : ∀ (t : List Nat) (p : Nat), p < t.length / 2 →
    (decodePairs t).getD p 0
      = 16 * hexval (t.getD (2 * p) 0) + hexval (t.getD (2 * p + 1) 0)
  | [], p, h => by simp at h
  | [_], p, h => by
    simp only [List.length_cons, List.length_nil] at h
    omega
  | a :: b :: rest, 0, _ => by simp [decodePairs]
  | a :: b :: rest, p + 1, h => by
    have h1 : p < rest.length / 2 := by
      simp only [List.length_cons] at h
      omega
    have ih := decodePairs_getD rest p h1
    have e1 : 2 * (p + 1) = 2 * p + 1 + 1 := by omega
    have e2 : 2 * (p + 1) + 1 = 2 * p + 1 + 1 + 1 := by omega
    rw [e2, e1]
    simpa [decodePairs] using ih

theorem hexDigitUpper_hexval {c : Nat} (h : isHexChar c) : hexDigitUpper (hexval c) = toupper c := by
  unfold isHexChar at h
  unfold hexDigitUpper hexval toupper
  split_ifs <;> omega

theorem encode_decodePairs : ∀ t : List Nat, t.length % 2 = 0 → (∀ c ∈ t, isHexChar c) →
    encodeHexUpper (decodePairs t) = t.map toupper
  | [], _, _ => rfl
  | [_], h, _ => by simp at h
  | a :: b :: rest, h, hhex => by
    have ha : isHexChar a := hhex a (by simp)
    have hb : isHexChar b := hhex b (by simp)
    have hr : rest.length % 2 = 0 := by
      simp only [List.length_cons] at h
      omega
    have ih := encode_decodePairs rest hr (fun c hc => hhex c (by simp [hc]))
    have hxa : hexval a < 16 := hexval_lt
    have hxb : hexval b < 16 := hexval_lt
    have e1 : (16 * hexval a + hexval b) / 16 = hexval a := by omega
    have e2 : (16 * hexval a + hexval b) % 16 = hexval b := by omega
    simp only [decodePairs, encodeHexUpper, List.map_cons, e1, e2, ih,
      hexDigitUpper_hexval ha, hexDigitUpper_hexval hb]

/-! ## `buffer_to_hex` on well-formed hexadecimal text -/

/-- On even-length hexadecimal text shorter than `2^16` characters the call
returns, with the decoded bytes in front, a NUL after them and the rest of the
buffer as it was; the value returned is `strlen` of that buffer. -/
theorem buffer_to_hex_valid (text : List Nat) (heven : text.length % 2 = 0)
    (hhex : ∀ c ∈ text, isHexChar c) (hlen : text.length < 65536) :
    ∃ out, buffer_to_hex (cstr text) = .returned (strlen out) out ∧
      out.length = text.length + 1 ∧
      ∀ p, out.getD p 0 =
        if p < text.length / 2 then
          16 * hexval (text.getD (2 * p) 0) + hexval (text.getD (2 * p + 1) 0)
        else if p = text.length / 2 then 0
        else text.getD p 0 := by
  have hnz : ∀ c ∈ text, c ≠ 0 := fun c hc => isHexChar_ne_zero (hhex c hc)
  have hval : ∀ p, 0 ≤ p → p < 0 + text.length → isHexChar ((cstr text).getD p 0) := by
    intro p _ hp
    rw [getD_cstr, List.getD_eq_getElem _ _ (by omega)]
    exact hhex _ (List.getElem_mem _)
  obtain ⟨out, hrun, hlen1, hget⟩ :=
    hexLoop_valid (cstr text) text.length 0 (cstr text) (hexInv_init _) hval
  refine ⟨out.set (text.length / 2) 0, ?_, ?_, ?_⟩
  · unfold buffer_to_hex
    simp only [strlen_cstr text hnz, Nat.mod_eq_of_lt hlen, Nat.and_one_is_mod, heven,
      ne_eq, not_true_eq_false, if_false, hrun]
  · simp [hlen1, cstr]
  · intro p
    rw [getD_set_eq, hget p]
    have hl : out.length = text.length + 1 := by simp [hlen1, cstr]
    unfold hexStateAt
    simp only [getD_cstr, Nat.zero_add]
    by_cases h1 : p < text.length / 2
    · have h0 : ¬ (text.length / 2 = p ∧ text.length / 2 < out.length) := by omega
      have h2 : 2 * p + 1 < text.length := by omega
      rw [if_neg h0, if_pos h1, if_pos h2]
    · by_cases h2 : p = text.length / 2
      · have h0 : text.length / 2 = p ∧ text.length / 2 < out.length := by omega
        rw [if_pos h0, if_neg h1, if_pos h2]
      · have h0 : ¬ (text.length / 2 = p ∧ text.length / 2 < out.length) := by omega
        have h3 : ¬ (2 * p + 1 < text.length) := by omega
        have h4 : ¬ (2 * p < text.length) := by omega
        rw [if_neg h0, if_neg h1, if_neg h2, if_neg h3, if_neg h4]

/-- What `strlen` returns on a buffer that holds a NUL at position `n`: at
most `n`, and `n` exactly when no earlier byte is a NUL. -/
theorem strlen_of_zero_at : ∀ (l : List Nat) (n : Nat), n < l.length → l.getD n 0 = 0 →
    strlen l ≤ n ∧ (strlen l = n ↔ ∀ i, i < n → l.getD i 0 ≠ 0)
  | [], n, h, _ => by simp at h
  | a :: l, 0, _, h0 => by
    have ha : a = 0 := by simpa using h0
    subst ha
    simp [strlen]
  | a :: l, n + 1, h, h0 => by
    have hl : n < l.length := by
      simp only [List.length_cons] at h
      omega
    have h0l : l.getD n 0 = 0 := by simpa using h0
    obtain ⟨ih1, ih2⟩ := strlen_of_zero_at l n hl h0l
    by_cases ha : a = 0
    · subst ha
      refine ⟨by simp [strlen], ?_⟩
      constructor
      · intro h1
        simp [strlen] at h1
      · intro h1
        exact absurd (by simp) (h1 0 (by omega))
    · refine ⟨by simp [strlen, ha]; omega, ?_⟩
      simp only [strlen, ha, if_false, Nat.add_right_cancel_iff]
      rw [ih2]
      constructor
      · intro h1 i hi
        cases i with
        | zero => simpa using ha
        | succ i => simpa using h1 i (by omega)
      · intro h1 i hi
        simpa using h1 (i + 1) (by omega)

/-- The value returned by `buffer_to_hex` on even-length hexadecimal text of
2n < 65536 characters is at most n, and is n exactly when none of the n decoded
bytes is 0x00. -/
theorem buffer_to_hex_return_value (text : List Nat) (heven : text.length % 2 = 0)
    (hhex : ∀ c ∈ text, isHexChar c) (hlen : text.length < 65536) :
    ∃ ret out, buffer_to_hex (cstr text) = .returned ret out ∧ ret ≤ text.length / 2 ∧
      (ret = text.length / 2 ↔ ∀ i, i < text.length / 2 →
        16 * hexval (text.getD (2 * i) 0) + hexval (text.getD (2 * i + 1) 0) ≠ 0) := by
  obtain ⟨out, hrun, hlen1, hget⟩ := buffer_to_hex_valid text heven hhex hlen
  have hz : out.getD (text.length / 2) 0 = 0 := by
    rw [hget]
    simp
  obtain ⟨h1, h2⟩ := strlen_of_zero_at out (text.length / 2) (by omega) hz
  refine ⟨strlen out, out, hrun, h1, ?_⟩
  rw [h2]
  constructor
  · intro h i hi
    have := h i hi
    rwa [hget i, if_pos hi] at this
  · intro h i hi
    rw [hget i, if_pos hi]
    exact h i hi

/-! ## Claims on `buffer_to_hex` -/

/-- C1, the code at the failing inputs: on the texts "00" and "0041"
`buffer_to_hex` returns 0, not the 1 and 2 bytes it decoded, because the value
returned is `strlen` of the decoded buffer, whose first byte is 0x00. -/
theorem buffer_to_hex_zero_byte_return :
    buffer_to_hex (cstr [48, 48]) = .returned 0 [0, 0, 0] ∧
    buffer_to_hex (cstr [48, 48, 52, 49]) = .returned 0 [0, 65, 0, 49, 0] := by
  decide

/-- C2 as stated fails on a text of 65536 characters `1`: `num_chars` wraps to
0, no pair is decoded, and the first byte of the buffer is the NUL written at
`buf[num_chars/2]`, not `16*hexval('1') + hexval('1') = 17`. -/
theorem buffer_to_hex_wraps_at_65536 :
    (List.replicate 65536 49).length % 2 = 0 ∧
    (∀ c ∈ List.replicate 65536 49, isHexChar c) ∧
    buffer_to_hex (cstr (List.replicate 65536 49))
      = .returned 0 (0 :: (List.replicate 65535 49 ++ [0])) ∧
    16 * hexval 49 + hexval 49 = 17 := by
  have hmem : ∀ c ∈ List.replicate 65536 49, c = 49 := fun c hc => List.eq_of_mem_replicate hc
  refine ⟨by rw [List.length_replicate], ?_, ?_, by decide⟩
  · intro c hc
    rw [hmem c hc]
    decide
  · have hs : strlen (cstr (List.replicate 65536 49)) = 65536 := by
      rw [strlen_cstr _ (fun c hc => by rw [hmem c hc]; decide), List.length_replicate]
    have hcons : cstr (List.replicate 65536 49) = 49 :: (List.replicate 65535 49 ++ [0]) := by
      unfold cstr
      rw [show (65536 : Nat) = 65535 + 1 from rfl, List.replicate_succ, List.cons_append]
    unfold buffer_to_hex
    rw [hs]
    have h0 : (65536 : Nat) % 65536 = 0 := by decide
    simp only [h0]
    rw [hcons]
    rfl

/-- C2, amended: for every even-length text of 2n characters over
`[0-9A-Fa-f]` with 2n < 65536, `buffer_to_hex` returns and the first n bytes of
the buffer, re-encoded as uppercase hexadecimal, are the uppercased text; byte
i is `16*hexval(text[2i]) + hexval(text[2i+1])`, computed from the original
characters, so no read is affected by the earlier in-place writes. -/
theorem buffer_to_hex_roundtrip (text : List Nat) (heven : text.length % 2 = 0)
    (hhex : ∀ c ∈ text, isHexChar c) (hlen : text.length < 65536) :
    ∃ ret out, buffer_to_hex (cstr text) = .returned ret out ∧
      encodeHexUpper (out.take (text.length / 2)) = text.map toupper ∧
      ∀ i, i < text.length / 2 →
        out.getD i 0 = 16 * hexval (text.getD (2 * i) 0) + hexval (text.getD (2 * i + 1) 0) := by
  obtain ⟨out, hrun, hlen1, hget⟩ := buffer_to_hex_valid text heven hhex hlen
  have hbytes : ∀ i, i < text.length / 2 →
      out.getD i 0 = 16 * hexval (text.getD (2 * i) 0) + hexval (text.getD (2 * i + 1) 0) := by
    intro i hi
    rw [hget i, if_pos hi]
  refine ⟨strlen out, out, hrun, ?_, hbytes⟩
  have htake : out.take (text.length / 2) = decodePairs text := by
    apply ext_getD
    · rw [List.length_take, decodePairs_length, hlen1]
      omega
    · intro p hp
      rw [List.length_take] at hp
      have hp1 : p < text.length / 2 := by omega
      rw [getD_take_eq _ _ _ hp1, hbytes p hp1, decodePairs_getD text p hp1]
  rw [htake]
  exact encode_decodePairs text heven hhex

/-- Instance of `buffer_to_hex_roundtrip` on the text "deadBEEF". -/
theorem buffer_to_hex_roundtrip_witness :
    ∃ ret out, buffer_to_hex (cstr [100, 101, 97, 100, 66, 69, 69, 70]) = .returned ret out ∧
      encodeHexUpper (out.take ([100, 101, 97, 100, 66, 69, 69, 70].length / 2))
        = [100, 101, 97, 100, 66, 69, 69, 70].map toupper ∧
      ∀ i, i < [100, 101, 97, 100, 66, 69, 69, 70].length / 2 →
        out.getD i 0 = 16 * hexval ([100, 101, 97, 100, 66, 69, 69, 70].getD (2 * i) 0)
          + hexval ([100, 101, 97, 100, 66, 69, 69, 70].getD (2 * i + 1) 0) :=
  buffer_to_hex_roundtrip [100, 101, 97, 100, 66, 69, 69, 70] (by decide) (by decide) (by decide)

/-- C3 as stated fails on the text "1Z": the invalid-character exit is taken,
but by then the first byte of the buffer has been overwritten with 0x10. -/
theorem buffer_to_hex_invalid_after_write :
    buffer_to_hex (cstr [49, 90]) = .invalidChar [16, 90, 0] ∧
    [16, 90, 0] ≠ cstr [49, 90] := by
  decide

/-- C3, amended: for every even-length text shorter than 65536 characters that
holds a character outside `[0-9A-Fa-f]`, `buffer_to_hex` takes the
invalid-character exit; with `i` the index of the first such character, the
buffer is then unchanged from byte `(i+1)/2` on, and the bytes before hold the
data decoded from the first `i` characters. -/
theorem buffer_to_hex_invalid (text : List Nat) (hnz : ∀ c ∈ text, c ≠ 0)
    (heven : text.length % 2 = 0) (hlen : text.length < 65536)
    (hbad : ∃ c ∈ text, ¬ isHexChar c) :
    ∃ i out, i < text.length ∧ (∀ p, p < i → isHexChar (text.getD p 0)) ∧
      ¬ isHexChar (text.getD i 0) ∧
      buffer_to_hex (cstr text) = .invalidChar out ∧
      out.length = text.length + 1 ∧
      out.drop ((i + 1) / 2) = (cstr text).drop ((i + 1) / 2) ∧
      (∀ p, 2 * p + 1 < i →
        out.getD p 0 = 16 * hexval (text.getD (2 * p) 0) + hexval (text.getD (2 * p + 1) 0)) ∧
      (i % 2 = 1 → out.getD (i / 2) 0 = 16 * hexval (text.getD (i - 1) 0)) := by
  have hex : ∃ i, i < text.length ∧ ¬ isHexChar (text.getD i 0) := by
    obtain ⟨c, hc, hcbad⟩ := hbad
    obtain ⟨i, hi, hic⟩ := List.getElem_of_mem hc
    exact ⟨i, hi, by rw [List.getD_eq_getElem _ _ hi, hic]; exact hcbad⟩
  classical
  let i := Nat.find hex
  have hi : i < text.length ∧ ¬ isHexChar (text.getD i 0) := Nat.find_spec hex
  have hmin : ∀ p, p < i → isHexChar (text.getD p 0) := by
    intro p hp
    by_contra hpb
    exact Nat.find_min hex hp ⟨by omega, hpb⟩
  obtain ⟨r, hr⟩ : ∃ r, text.length = i + r + 1 := ⟨text.length - i - 1, by omega⟩
  obtain ⟨out, hrun, hlen1, hget⟩ :=
    hexLoop_invalid (cstr text) i r 0 (cstr text) (hexInv_init _)
      (fun p _ hp => by rw [getD_cstr]; exact hmin p (by omega))
      (by rw [getD_cstr, Nat.zero_add]; exact hi.2)
  have hl : out.length = text.length + 1 := by simp [hlen1, cstr]
  rw [Nat.zero_add] at hget
  refine ⟨i, out, hi.1, hmin, hi.2, ?_, hl, ?_, ?_, ?_⟩
  · unfold buffer_to_hex
    simp only [strlen_cstr text hnz, Nat.mod_eq_of_lt hlen, Nat.and_one_is_mod, heven,
      ne_eq, not_true_eq_false, if_false]
    rw [hr, hrun]
  · apply ext_getD
    · rw [List.length_drop, List.length_drop, hlen1]
    · intro p _
      rw [getD_drop_eq, getD_drop_eq, hget]
      unfold hexStateAt
      have h1 : ¬ (2 * ((i + 1) / 2 + p) + 1 < i) := by omega
      have h2 : ¬ (2 * ((i + 1) / 2 + p) < i) := by omega
      rw [if_neg h1, if_neg h2]
  · intro p hp
    rw [hget]
    unfold hexStateAt
    rw [if_pos hp, getD_cstr, getD_cstr]
  · intro hodd
    rw [hget]
    unfold hexStateAt
    have h1 : ¬ (2 * (i / 2) + 1 < i) := by omega
    have h2 : 2 * (i / 2) < i := by omega
    have h3 : 2 * (i / 2) = i - 1 := by omega
    rw [if_neg h1, if_pos h2, getD_cstr, h3]

/-- Instance of `buffer_to_hex_invalid` on the text "41zZ". -/
theorem buffer_to_hex_invalid_witness :
    ∃ i out, i < [52, 49, 122, 90].length ∧ (∀ p, p < i → isHexChar ([52, 49, 122, 90].getD p 0)) ∧
      ¬ isHexChar ([52, 49, 122, 90].getD i 0) ∧
      buffer_to_hex (cstr [52, 49, 122, 90]) = .invalidChar out ∧
      out.length = [52, 49, 122, 90].length + 1 ∧
      out.drop ((i + 1) / 2) = (cstr [52, 49, 122, 90]).drop ((i + 1) / 2) ∧
      (∀ p, 2 * p + 1 < i →
        out.getD p 0 = 16 * hexval ([52, 49, 122, 90].getD (2 * p) 0)
          + hexval ([52, 49, 122, 90].getD (2 * p + 1) 0)) ∧
      (i % 2 = 1 → out.getD (i / 2) 0 = 16 * hexval ([52, 49, 122, 90].getD (i - 1) 0)) :=
  buffer_to_hex_invalid [52, 49, 122, 90] (by decide) (by decide) (by decide)
    ⟨122, by decide, by decide⟩

/-- C4: for every odd-length text, whatever its (non-NUL) characters and
however long, `buffer_to_hex` takes the odd-length exit, with the buffer
exactly as it was passed in: the loop that reads and packs characters is never
entered. -/
theorem buffer_to_hex_odd (text : List Nat) (hnz : ∀ c ∈ text, c ≠ 0)
    (hodd : text.length % 2 = 1) :
    buffer_to_hex (cstr text) = .oddLength (cstr text) := by
  unfold buffer_to_hex
  have h : text.length % 65536 % 2 ≠ 0 := by omega
  simp only [strlen_cstr text hnz, Nat.and_one_is_mod, ne_eq, h, not_false_eq_true, if_true]

/-- Instance of `buffer_to_hex_odd` on the text "4Z!", which is odd in length
and holds characters outside the hexadecimal set. -/
theorem buffer_to_hex_odd_witness :
    (∀ c ∈ [52, 90, 33], c ≠ 0) ∧ [52, 90, 33].length % 2 = 1 ∧
    buffer_to_hex (cstr [52, 90, 33]) = .oddLength (cstr [52, 90, 33]) :=
  ⟨by decide, by decide, buffer_to_hex_odd [52, 90, 33] (by decide) (by decide)⟩

/-! ## Reading the receive buffer -/

theorem readByte_append (raw rest : List Nat) (i : Nat) (h : i < raw.length) :
    readByte (raw ++ rest) (i : Int) = some (raw.getD i 0) := by
  unfold readByte
  have h0 : (0 : Int) ≤ (i : Int) := Int.ofNat_nonneg i
  rw [if_pos h0, Int.toNat_ofNat, List.getElem?_append_left h, List.getD_eq_getElem _ _ h,
    List.getElem?_eq_getElem h]

theorem readByte_of_lt (buf : List Nat) (i : Nat) (h : i < buf.length) :
    readByte buf (i : Int) = some (buf.getD i 0) := by
  have := readByte_append buf [] i h
  rwa [List.append_nil] at this

theorem mapM_range_getElem (buf : List Nat) : ∀ (n s : Nat), s + n ≤ buf.length →
    (List.range' s n).mapM (fun c => buf[c]?) = some ((buf.drop s).take n) := by
  intro n
  induction n with
  | zero =>
    intro s _
    rfl
  | succ n ih =>
    intro s hs
    have hlt : s < buf.length := by omega
    rw [List.range'_succ, List.mapM_cons, ih (s + 1) (by omega), List.getElem?_eq_getElem hlt,
      List.drop_eq_getElem_cons hlt, List.take_succ_cons]
    rfl

theorem readRange_of_le (buf : List Nat) (start stop : Nat) (h : stop ≤ buf.length) :
    readRange buf start (stop : Int) = some ((buf.take stop).drop start) := by
  unfold readRange
  rw [Int.toNat_ofNat]
  by_cases hs : start ≤ stop
  · rw [mapM_range_getElem buf (stop - start) start (by omega), List.drop_take]
  · have h0 : stop - start = 0 := by omega
    have h1 : (buf.take stop).drop start = [] := by
      apply List.drop_eq_nil_of_le
      rw [List.length_take]
      omega
    rw [h0, h1]
    rfl

theorem readRange_append (raw rest : List Nat) (start stop : Nat) (h : stop ≤ raw.length) :
    readRange (raw ++ rest) start (stop : Int) = some ((raw.take stop).drop start) := by
  rw [readRange_of_le _ _ _ (by rw [List.length_append]; omega), List.take_append_of_le_length h]

theorem readRange_empty (buf : List Nat) (start : Nat) (stop : Int) (h : stop ≤ start) :
    readRange buf start stop = some [] := by
  unfold readRange
  have h0 : stop.toNat - start = 0 := by omega
  rw [h0]
  rfl

theorem getD_append_left (raw rest : List Nat) (i : Nat) (h : i < raw.length) :
    (raw ++ rest).getD i 0 = raw.getD i 0 := by
  rw [List.getD_eq_getElem?_getD, List.getD_eq_getElem?_getD, List.getElem?_append_left h]

theorem shl8_lor (hi lo : Nat) (h : lo < 256) : (hi <<< 8) ||| lo = hi * 256 + lo := by
  rw [Nat.shiftLeft_eq, Nat.mul_comm hi (2 ^ 8)]
  exact (Nat.mul_add_lt_is_or (by simpa using h) hi).symm

/-! ## The report stages on a buffer -/

/-- The report of `echo_tx_with_payload` for a length of at least two within
the buffer. -/
theorem echo_tx_report_eq (buf : List Nat) (len : Nat) (h2 : 2 ≤ len) (hle : len ≤ buf.length) :
    echo_tx_with_payload_report 0 buf len
      = some (.packet ((buf.take (len - 2)).drop 3)
          ((buf.getD (len - 2) 0 : Int) - 137)
          ((int8 (buf.getD (len - 1) 0) : ℚ) / 4)) := by
  unfold echo_tx_with_payload_report
  have hpos : (0 : Int) = 0 ∧ len > 0 := ⟨rfl, by omega⟩
  have e2 : (len : Int) - 2 = ((len - 2 : Nat) : Int) := by omega
  have e1 : (len : Int) - 1 = ((len - 1 : Nat) : Int) := by omega
  rw [if_pos hpos, e2, e1, readRange_of_le buf 3 _ (by omega),
    readByte_of_lt buf _ (by omega), readByte_of_lt buf _ (by omega)]
  rfl

/-- The report of `echo_test_mode` for a length of at least two within a
buffer of at least five bytes. -/
theorem echo_test_report_eq (buf : List Nat) (len : Nat) (cnt : Int) (h5 : 5 ≤ buf.length)
    (h2 : 2 ≤ len) (hle : len ≤ buf.length) :
    echo_test_report 0 buf len cnt
      = some (.packet ((buf.getD 4 0 <<< 8) ||| buf.getD 3 0) ((buf.take (len - 2)).drop 5)
          ((buf.getD (len - 2) 0 : Int) - 137)
          ((int8 (buf.getD (len - 1) 0) : ℚ) / 4)) := by
  unfold echo_test_report
  have hpos : (0 : Int) = 0 ∧ len > 0 := ⟨rfl, by omega⟩
  have e2 : (len : Int) - 2 = ((len - 2 : Nat) : Int) := by omega
  have e1 : (len : Int) - 1 = ((len - 1 : Nat) : Int) := by omega
  rw [if_pos hpos, e2, e1, readRange_of_le buf 5 _ (by omega),
    readByte_of_lt buf _ (by omega), readByte_of_lt buf _ (by omega),
    show (4 : Int) = ((4 : Nat) : Int) from rfl, show (3 : Int) = ((3 : Nat) : Int) from rfl,
    readByte_of_lt buf 4 (by omega), readByte_of_lt buf 3 (by omega)]
  rfl

/-- The report of `rx_mode_cont` with the frequency error requested, for a
nonzero length within a buffer of at least seven bytes. -/
theorem rx_cont_report_freq_eq (buf : List Nat) (len : Nat) (h7 : 7 ≤ buf.length)
    (h1 : 1 ≤ len) (hle : len ≤ buf.length) :
    rx_mode_cont_report 0 buf len 1
      = some (some
          { length := (len : Int) - 7
            rssi := int16_le (buf.getD 0 0) (buf.getD 1 0)
            snr := (int8 (buf.getD 2 0) : ℚ) / 4
            frequency_error_hz :=
              some (int32_le (buf.getD 3 0) (buf.getD 4 0) (buf.getD 5 0) (buf.getD 6 0))
            payload := (buf.take len).drop 7 }) := by
  unfold rx_mode_cont_report
  have hpos : (0 : Int) = 0 ∧ len > 0 := ⟨rfl, by omega⟩
  rw [if_pos hpos, if_pos rfl, readRange_of_le buf 7 len hle,
    show (0 : Int) = ((0 : Nat) : Int) from rfl, show (1 : Int) = ((1 : Nat) : Int) from rfl,
    show (2 : Int) = ((2 : Nat) : Int) from rfl, show (3 : Int) = ((3 : Nat) : Int) from rfl,
    show (4 : Int) = ((4 : Nat) : Int) from rfl, show (5 : Int) = ((5 : Nat) : Int) from rfl,
    show (6 : Int) = ((6 : Nat) : Int) from rfl,
    readByte_of_lt buf 0 (by omega), readByte_of_lt buf 1 (by omega),
    readByte_of_lt buf 2 (by omega), readByte_of_lt buf 3 (by omega),
    readByte_of_lt buf 4 (by omega), readByte_of_lt buf 5 (by omega),
    readByte_of_lt buf 6 (by omega)]
  rfl

/-- The report of `rx_mode_cont` without the frequency error, for a nonzero
length within a buffer of at least three bytes. -/
theorem rx_cont_report_plain_eq (buf : List Nat) (len f : Nat) (hf : f ≠ 1)
    (h3 : 3 ≤ buf.length) (h1 : 1 ≤ len) (hle : len ≤ buf.length) :
    rx_mode_cont_report 0 buf len f
      = some (some
          { length := (len : Int) - 3
            rssi := int16_le (buf.getD 0 0) (buf.getD 1 0)
            snr := (int8 (buf.getD 2 0) : ℚ) / 4
            frequency_error_hz := none
            payload := (buf.take len).drop 3 }) := by
  unfold rx_mode_cont_report
  have hpos : (0 : Int) = 0 ∧ len > 0 := ⟨rfl, by omega⟩
  have hf1 : ¬ (1 = f) := fun h => hf h.symm
  rw [if_pos hpos, if_neg hf1, readRange_of_le buf 3 len hle,
    show (0 : Int) = ((0 : Nat) : Int) from rfl, show (1 : Int) = ((1 : Nat) : Int) from rfl,
    show (2 : Int) = ((2 : Nat) : Int) from rfl,
    readByte_of_lt buf 0 (by omega), readByte_of_lt buf 1 (by omega),
    readByte_of_lt buf 2 (by omega)]
  rfl

/-! ## The signed reads, in plain arithmetic -/

/-- The cast `(int8_t)b` of a byte is `b`, less 256 from 0x80 on. -/
theorem int8_of_byte (b : Nat) (h : b < 256) :
    int8 b = (b : Int) - (if b < 128 then 0 else 256) := by
  unfold int8
  rw [Nat.mod_eq_of_lt h]
  split_ifs <;> omega

/-- The 16-bit read of two bytes is `b0 + 256*b1`, less 65536 from 0x8000 on. -/
theorem int16_le_of_bytes (b0 b1 : Nat) (h0 : b0 < 256) (h1 : b1 < 256) :
    int16_le b0 b1
      = ((b0 + 256 * b1 : Nat) : Int) - (if b0 + 256 * b1 < 32768 then 0 else 65536) := by
  unfold int16_le
  simp only [Nat.mod_eq_of_lt h0, Nat.mod_eq_of_lt h1]
  split_ifs <;> omega

/-- The 32-bit read of four bytes is `b0 + 256*b1 + 65536*b2 + 16777216*b3`,
less 2^32 from 0x80000000 on. -/
theorem int32_le_of_bytes (b0 b1 b2 b3 : Nat) (h0 : b0 < 256) (h1 : b1 < 256) (h2 : b2 < 256)
    (h3 : b3 < 256) :
    int32_le b0 b1 b2 b3
      = ((b0 + 256 * b1 + 65536 * b2 + 16777216 * b3 : Nat) : Int)
        - (if b0 + 256 * b1 + 65536 * b2 + 16777216 * b3 < 2147483648 then 0
           else 4294967296) := by
  unfold int32_le
  simp only [Nat.mod_eq_of_lt h0, Nat.mod_eq_of_lt h1, Nat.mod_eq_of_lt h2,
    Nat.mod_eq_of_lt h3]
  split_ifs <;> omega

theorem getD_lt_of_bytes (raw : List Nat) (hbytes : ∀ b ∈ raw, b < 256) (i : Nat) :
    raw.getD i 0 < 256 := by
  by_cases hi : i < raw.length
  · rw [List.getD_eq_getElem _ _ hi]
    exact hbytes _ (List.getElem_mem _)
  · rw [getD_zero_of_le raw i (Nat.le_of_not_lt hi)]
    decide

/-! ## The sample receive buffer -/

theorem shortFrameBuf_length : shortFrameBuf.length = RX_BUF_LEN := by
  unfold shortFrameBuf RX_BUF_LEN
  rw [List.length_append, List.length_replicate]
  rfl

theorem shortFrameBuf_getD :
    shortFrameBuf.getD 0 0 = 0x18 ∧ shortFrameBuf.getD 1 0 = 0xFC ∧
    shortFrameBuf.getD 2 0 = 0xF8 ∧ shortFrameBuf.getD 3 0 = 0x60 ∧
    shortFrameBuf.getD 4 0 = 0x79 ∧ shortFrameBuf.getD 5 0 = 0xFE ∧
    shortFrameBuf.getD 6 0 = 0xFF :=
  ⟨rfl, rfl, rfl, rfl, rfl, rfl, rfl⟩

/-! ## Claims on the receive-frame reports -/

/-- C5 as stated fails on the frame `[0x41, 0x42, 0xC8, 0x10]`: the payload
loop of `echo_tx_with_payload` starts at offset 3, so the payload printed is
empty and not "AB" (rssi 63 and snr 4 are as stated). -/
theorem echo_tx_report_example_payload_empty :
    echo_tx_with_payload_report 0 ([0x41, 0x42, 0xC8, 0x10] ++ List.replicate 251 0) 4
      = some (.packet [] 63 4) ∧
    EchoTxReport.packet [] 63 4 ≠ EchoTxReport.packet [0x41, 0x42] 63 4 := by
  constructor
  · rw [echo_tx_report_eq _ 4 (by decide)
      (by rw [List.length_append, List.length_replicate]; decide)]
    norm_num [int8]
  · simp

/-- C5, amended: for every frame `raw` of length len >= 2 received by
`echo_tx_with_payload`, whatever follows it in the buffer, the report has
rssi = raw[len-2] - 137, snr = (raw[len-1] as a signed byte) / 4 and
payload = raw[3 .. len-2), the bytes between the three leading ones and the two
trailing metadata bytes; for `[0x41, 0x42, 0xC8, 0x10]` this is rssi 63, snr 4
and an empty payload. -/
theorem echo_tx_report_basic (raw rest : List Nat) (hlen : 2 ≤ raw.length) :
    echo_tx_with_payload_report 0 (raw ++ rest) raw.length
      = some (.packet ((raw.take (raw.length - 2)).drop 3)
          ((raw.getD (raw.length - 2) 0 : Int) - 137)
          ((int8 (raw.getD (raw.length - 1) 0) : ℚ) / 4)) ∧
    echo_tx_with_payload_report 0 ([0x41, 0x42, 0xC8, 0x10] ++ rest) 4
      = some (.packet [] 63 4) := by
  constructor
  · rw [echo_tx_report_eq _ _ hlen (by simp),
      List.take_append_of_le_length (Nat.sub_le _ _),
      getD_append_left raw rest (raw.length - 2) (by omega),
      getD_append_left raw rest (raw.length - 1) (by omega)]
  · rw [echo_tx_report_eq _ 4 (by decide) (by simp)]
    norm_num [int8]

/-- Instance of `echo_tx_report_basic` on a nine-byte frame. -/
theorem echo_tx_report_basic_witness :
    2 ≤ [1, 2, 3, 72, 105, 33, 0, 200, 240].length ∧
    echo_tx_with_payload_report 0 ([1, 2, 3, 72, 105, 33, 0, 200, 240] ++ [9, 9])
        [1, 2, 3, 72, 105, 33, 0, 200, 240].length
      = some (.packet
          (([1, 2, 3, 72, 105, 33, 0, 200, 240].take
            ([1, 2, 3, 72, 105, 33, 0, 200, 240].length - 2)).drop 3)
          (([1, 2, 3, 72, 105, 33, 0, 200, 240].getD
            ([1, 2, 3, 72, 105, 33, 0, 200, 240].length - 2) 0 : Int) - 137)
          ((int8 ([1, 2, 3, 72, 105, 33, 0, 200, 240].getD
            ([1, 2, 3, 72, 105, 33, 0, 200, 240].length - 1) 0) : ℚ) / 4)) :=
  ⟨by decide, (echo_tx_report_basic [1, 2, 3, 72, 105, 33, 0, 200, 240] [9, 9] (by decide)).1⟩

/-- C6: for every frame `raw` received by `rx_mode_cont`, whatever follows it
in the buffer: with the frequency error requested and len >= 7, rssi is the
signed 16-bit little-endian value of raw[0..2), snr is (raw[2] as a signed
byte)/4, the frequency error is the signed 32-bit little-endian value of
raw[3..7), the payload is raw[7 .. len) and the length reported is len-7;
without it and len >= 3, rssi and snr are the same, the payload is
raw[3 .. len) and the length reported is len-3. For bytes below 256 the
signed values are written out: `raw[0] + 256*raw[1]` less 65536 from 0x8000
on, `raw[2]` less 256 from 0x80 on, and
`raw[3] + 256*raw[4] + 65536*raw[5] + 16777216*raw[6]` less 2^32 from
0x80000000 on. The frame `[0xCE,0xFF,0x08,0x9C,0xFF,0xFF,0xFF,0x58]` gives
rssi -50, snr 2, frequency error -100 and payload "X"; the frame
`[0x18,0xFC,0xF8,0x60,0x79,0xFE,0xFF,0x4F,0x4B]` gives rssi -1000, snr -2,
frequency error -100000 and payload "OK"; the frame
`[0xE8,0x03,0x7F,0x40,0x0D,0x03,0x00,0x58]` gives rssi 1000, snr 31.75,
frequency error 200000 and payload "X". -/
theorem rx_mode_cont_report_frame (raw rest : List Nat) :
    (7 ≤ raw.length →
      rx_mode_cont_report 0 (raw ++ rest) raw.length 1
        = some (some
            { length := (raw.length : Int) - 7
              rssi := int16_le (raw.getD 0 0) (raw.getD 1 0)
              snr := (int8 (raw.getD 2 0) : ℚ) / 4
              frequency_error_hz :=
                some (int32_le (raw.getD 3 0) (raw.getD 4 0) (raw.getD 5 0) (raw.getD 6 0))
              payload := raw.drop 7 })) ∧
    (∀ f, f ≠ 1 → 3 ≤ raw.length →
      rx_mode_cont_report 0 (raw ++ rest) raw.length f
        = some (some
            { length := (raw.length : Int) - 3
              rssi := int16_le (raw.getD 0 0) (raw.getD 1 0)
              snr := (int8 (raw.getD 2 0) : ℚ) / 4
              frequency_error_hz := none
              payload := raw.drop 3 })) ∧
    rx_mode_cont_report 0 ([0xCE, 0xFF, 0x08, 0x9C, 0xFF, 0xFF, 0xFF, 0x58] ++ rest) 8 1
      = some (some
          { length := 1, rssi := -50, snr := 2, frequency_error_hz := some (-100),
            payload := [0x58] }) ∧
    (7 ≤ raw.length → (∀ b ∈ raw, b < 256) →
      rx_mode_cont_report 0 (raw ++ rest) raw.length 1
        = some (some
            { length := (raw.length : Int) - 7
              rssi := ((raw.getD 0 0 + 256 * raw.getD 1 0 : Nat) : Int)
                - (if raw.getD 0 0 + 256 * raw.getD 1 0 < 32768 then 0 else 65536)
              snr := ((((raw.getD 2 0 : Nat) : Int)
                - (if raw.getD 2 0 < 128 then 0 else 256) : Int) : ℚ) / 4
              frequency_error_hz :=
                some (((raw.getD 3 0 + 256 * raw.getD 4 0 + 65536 * raw.getD 5 0
                    + 16777216 * raw.getD 6 0 : Nat) : Int)
                  - (if raw.getD 3 0 + 256 * raw.getD 4 0 + 65536 * raw.getD 5 0
                      + 16777216 * raw.getD 6 0 < 2147483648 then 0 else 4294967296))
              payload := raw.drop 7 })) ∧
    (∀ f, f ≠ 1 → 3 ≤ raw.length → (∀ b ∈ raw, b < 256) →
      rx_mode_cont_report 0 (raw ++ rest) raw.length f
        = some (some
            { length := (raw.length : Int) - 3
              rssi := ((raw.getD 0 0 + 256 * raw.getD 1 0 : Nat) : Int)
                - (if raw.getD 0 0 + 256 * raw.getD 1 0 < 32768 then 0 else 65536)
              snr := ((((raw.getD 2 0 : Nat) : Int)
                - (if raw.getD 2 0 < 128 then 0 else 256) : Int) : ℚ) / 4
              frequency_error_hz := none
              payload := raw.drop 3 })) ∧
    rx_mode_cont_report 0 ([0x18, 0xFC, 0xF8, 0x60, 0x79, 0xFE, 0xFF, 0x4F, 0x4B] ++ rest) 9 1
      = some (some
          { length := 2, rssi := -1000, snr := -2, frequency_error_hz := some (-100000),
            payload := [0x4F, 0x4B] }) ∧
    rx_mode_cont_report 0 ([0xE8, 0x03, 0x7F, 0x40, 0x0D, 0x03, 0x00, 0x58] ++ rest) 8 1
      = some (some
          { length := 1, rssi := 1000, snr := 127 / 4, frequency_error_hz := some 200000,
            payload := [0x58] }) ∧
    rx_mode_cont_report 0 ([0x18, 0xFC, 0xF8, 0x60, 0x79] ++ rest) 5 0
      = some (some
          { length := 2, rssi := -1000, snr := -2, frequency_error_hz := none,
            payload := [0x60, 0x79] }) := by
  have hfreq : 7 ≤ raw.length →
      rx_mode_cont_report 0 (raw ++ rest) raw.length 1
        = some (some
            { length := (raw.length : Int) - 7
              rssi := int16_le (raw.getD 0 0) (raw.getD 1 0)
              snr := (int8 (raw.getD 2 0) : ℚ) / 4
              frequency_error_hz :=
                some (int32_le (raw.getD 3 0) (raw.getD 4 0) (raw.getD 5 0) (raw.getD 6 0))
              payload := raw.drop 7 }) := by
    intro h7
    rw [rx_cont_report_freq_eq _ _ (by simp; omega) (by omega) (by simp), List.take_left,
      getD_append_left raw rest 0 (by omega), getD_append_left raw rest 1 (by omega),
      getD_append_left raw rest 2 (by omega), getD_append_left raw rest 3 (by omega),
      getD_append_left raw rest 4 (by omega), getD_append_left raw rest 5 (by omega),
      getD_append_left raw rest 6 (by omega)]
  have hplain : ∀ f, f ≠ 1 → 3 ≤ raw.length →
      rx_mode_cont_report 0 (raw ++ rest) raw.length f
        = some (some
            { length := (raw.length : Int) - 3
              rssi := int16_le (raw.getD 0 0) (raw.getD 1 0)
              snr := (int8 (raw.getD 2 0) : ℚ) / 4
              frequency_error_hz := none
              payload := raw.drop 3 }) := by
    intro f hf h3
    rw [rx_cont_report_plain_eq _ _ f hf (by simp; omega) (by omega) (by simp), List.take_left,
      getD_append_left raw rest 0 (by omega), getD_append_left raw rest 1 (by omega),
      getD_append_left raw rest 2 (by omega)]
  refine ⟨hfreq, hplain, ?_, fun h7 hb => ?_, fun f hf h3 hb => ?_, ?_, ?_, ?_⟩
  · rw [rx_cont_report_freq_eq _ 8 (by simp) (by decide) (by simp)]
    norm_num [int8, int16_le, int32_le]
  · rw [hfreq h7,
      int16_le_of_bytes _ _ (getD_lt_of_bytes raw hb 0) (getD_lt_of_bytes raw hb 1),
      int8_of_byte _ (getD_lt_of_bytes raw hb 2),
      int32_le_of_bytes _ _ _ _ (getD_lt_of_bytes raw hb 3) (getD_lt_of_bytes raw hb 4)
        (getD_lt_of_bytes raw hb 5) (getD_lt_of_bytes raw hb 6)]
  · rw [hplain f hf h3,
      int16_le_of_bytes _ _ (getD_lt_of_bytes raw hb 0) (getD_lt_of_bytes raw hb 1),
      int8_of_byte _ (getD_lt_of_bytes raw hb 2)]
  · rw [rx_cont_report_freq_eq _ 9 (by simp) (by decide) (by simp)]
    norm_num [int8, int16_le, int32_le]
  · rw [rx_cont_report_freq_eq _ 8 (by simp) (by decide) (by simp)]
    norm_num [int8, int16_le, int32_le]
  · rw [rx_cont_report_plain_eq _ 5 0 (by decide) (by simp) (by decide) (by simp)]
    norm_num [int8, int16_le]

/-- Instance of `rx_mode_cont_report_frame` on the nine-byte frame
`[0x18,0xFC,0xF8,0x60,0x79,0xFE,0xFF,0x4F,0x4B]`, with and without the
frequency error, evaluated. -/
theorem rx_mode_cont_report_frame_witness :
    rx_mode_cont_report 0 ([0x18, 0xFC, 0xF8, 0x60, 0x79, 0xFE, 0xFF, 0x4F, 0x4B] ++ [7])
        [0x18, 0xFC, 0xF8, 0x60, 0x79, 0xFE, 0xFF, 0x4F, 0x4B].length 1
      = some (some
          { length := 2, rssi := -1000, snr := -2, frequency_error_hz := some (-100000),
            payload := [0x4F, 0x4B] }) ∧
    rx_mode_cont_report 0 ([0x18, 0xFC, 0xF8, 0x60, 0x79, 0xFE, 0xFF, 0x4F, 0x4B] ++ [7])
        [0x18, 0xFC, 0xF8, 0x60, 0x79, 0xFE, 0xFF, 0x4F, 0x4B].length 0
      = some (some
          { length := 6, rssi := -1000, snr := -2, frequency_error_hz := none,
            payload := [0x60, 0x79, 0xFE, 0xFF, 0x4F, 0x4B] }) :=
  ⟨((rx_mode_cont_report_frame [0x18, 0xFC, 0xF8, 0x60, 0x79, 0xFE, 0xFF, 0x4F, 0x4B]
        [7]).2.2.2.1 (by decide) (by decide)).trans (by norm_num),
    ((rx_mode_cont_report_frame [0x18, 0xFC, 0xF8, 0x60, 0x79, 0xFE, 0xFF, 0x4F, 0x4B]
        [7]).2.2.2.2.1 0 (by decide) (by decide) (by decide)).trans (by norm_num)⟩

/-- C7: for every frame `raw` (of bytes) of length len >= 7 received by
`echo_test_mode`, whatever follows it in the buffer,
source_id = raw[4]*256 + raw[3] (below 2^16), payload = raw[5 .. len-2),
rssi = raw[len-2] - 137 and snr = (raw[len-1] as a signed byte)/4, the signed
byte being raw[len-1] less 256 from 0x80 on; rssi lies in [-137, 118] and
4*snr is an integer in [-128, 127]. The frame
`[1,2,3,0x34,0x12,65,66,0xC8,0xF0]` gives source id 0x1234, payload "AB",
rssi 63 and snr -4. -/
theorem echo_test_report_frame (raw rest : List Nat) (cnt : Int) (hlen : 7 ≤ raw.length)
    (hbytes : ∀ b ∈ raw, b < 256) :
    echo_test_report 0 (raw ++ rest) raw.length cnt
      = some (.packet (raw.getD 4 0 * 256 + raw.getD 3 0)
          ((raw.take (raw.length - 2)).drop 5)
          ((raw.getD (raw.length - 2) 0 : Int) - 137)
          (((((raw.getD (raw.length - 1) 0 : Nat) : Int)
            - (if raw.getD (raw.length - 1) 0 < 128 then 0 else 256) : Int) : ℚ) / 4)) ∧
    raw.getD 4 0 * 256 + raw.getD 3 0 < 65536 ∧
    (-137 ≤ (raw.getD (raw.length - 2) 0 : Int) - 137 ∧
      (raw.getD (raw.length - 2) 0 : Int) - 137 ≤ 118) ∧
    (∃ z : Int, -128 ≤ z ∧ z ≤ 127 ∧
      4 * (((((raw.getD (raw.length - 1) 0 : Nat) : Int)
        - (if raw.getD (raw.length - 1) 0 < 128 then 0 else 256) : Int) : ℚ) / 4) = z) ∧
    echo_test_report 0 ([1, 2, 3, 0x34, 0x12, 65, 66, 0xC8, 0xF0] ++ rest) 9 cnt
      = some (.packet 0x1234 [65, 66] 63 (-4)) := by
  have h3 := getD_lt_of_bytes raw hbytes 3
  have h4 := getD_lt_of_bytes raw hbytes 4
  have hr := getD_lt_of_bytes raw hbytes (raw.length - 2)
  have hs := getD_lt_of_bytes raw hbytes (raw.length - 1)
  refine ⟨?_, by omega, by omega,
    ⟨((raw.getD (raw.length - 1) 0 : Nat) : Int)
      - (if raw.getD (raw.length - 1) 0 < 128 then 0 else 256), ?_, ?_, ?_⟩, ?_⟩
  · rw [echo_test_report_eq _ _ cnt (by simp; omega) (by omega) (by simp),
      List.take_append_of_le_length (Nat.sub_le _ _),
      getD_append_left raw rest (raw.length - 2) (by omega),
      getD_append_left raw rest (raw.length - 1) (by omega),
      getD_append_left raw rest 4 (by omega), getD_append_left raw rest 3 (by omega),
      shl8_lor _ _ h3, int8_of_byte _ hs]
  · split_ifs <;> omega
  · split_ifs <;> omega
  · field_simp
  · rw [echo_test_report_eq _ 9 cnt (by simp) (by decide) (by simp)]
    have hsrc : (18 <<< 8 ||| 52 : Nat) = 4660 := by decide
    norm_num [int8, hsrc]

/-- Instance of `echo_test_report_frame` on the nine-byte frame
`[1,2,3,0x34,0x12,65,66,0xC8,0xF0]`, evaluated: the last byte 0xF0 reads as
-16, so snr is -4. -/
theorem echo_test_report_frame_witness :
    7 ≤ [1, 2, 3, 0x34, 0x12, 65, 66, 0xC8, 0xF0].length ∧
    (∀ b ∈ [1, 2, 3, 0x34, 0x12, 65, 66, 0xC8, 0xF0], b < 256) ∧
    echo_test_report 0 ([1, 2, 3, 0x34, 0x12, 65, 66, 0xC8, 0xF0] ++ [5, 5])
        [1, 2, 3, 0x34, 0x12, 65, 66, 0xC8, 0xF0].length 3
      = some (.packet 4660 [65, 66] 63 (-4)) :=
  ⟨by decide, by decide,
    ((echo_test_report_frame [1, 2, 3, 0x34, 0x12, 65, 66, 0xC8, 0xF0] [5, 5] 3
      (by decide) (by decide)).1).trans (by norm_num)⟩

/-- C8 as stated fails on a three-byte frame in `rx_mode_cont` with the
frequency error requested (three bytes are fewer than the seven metadata
bytes): a packet is reported, with length -4, and its frequency error is read
from buffer offsets 3..6, outside the frame, so two buffers holding the same
frame `[0x18, 0xFC, 0xF8]` give different reports (frequency error -100000 and
200000). -/
theorem rx_mode_cont_reports_short_frame :
    rx_mode_cont_report 0
        ([0x18, 0xFC, 0xF8] ++ (0x60 :: 0x79 :: 0xFE :: 0xFF :: List.replicate 248 0)) 3 1
      = some (some
          { length := -4, rssi := -1000, snr := -2, frequency_error_hz := some (-100000),
            payload := [] }) ∧
    rx_mode_cont_report 0
        ([0x18, 0xFC, 0xF8] ++ (0x40 :: 0x0D :: 0x03 :: 0x00 :: List.replicate 248 0)) 3 1
      = some (some
          { length := -4, rssi := -1000, snr := -2, frequency_error_hz := some 200000,
            payload := [] }) := by
  constructor
  · rw [rx_cont_report_freq_eq _ 3
      (by simp only [List.length_append, List.length_cons, List.length_replicate,
        List.length_nil]; decide) (by decide)
      (by simp only [List.length_append, List.length_cons, List.length_replicate,
        List.length_nil]; decide)]
    norm_num [int8, int16_le, int32_le]
  · rw [rx_cont_report_freq_eq _ 3
      (by simp only [List.length_append, List.length_cons, List.length_replicate,
        List.length_nil]; decide) (by decide)
      (by simp only [List.length_append, List.length_cons, List.length_replicate,
        List.length_nil]; decide)]
    norm_num [int8, int16_le, int32_le]

/-- C8, amended: in a receive buffer of `RX_BUF_LEN` bytes, with return code
0: a zero-length frame is decoded by none of the three functions
(`echo_tx_with_payload` and `echo_test_mode` print "no packet", `rx_mode_cont`
prints nothing); in `rx_mode_cont` a frame of 1 <= len < 7 bytes with the
frequency error requested (1 <= len < 3 without it) is reported, with rssi, snr
and frequency error read from buffer offsets 0..6 (0..2), an empty payload and
the length len-7 (len-3); in `echo_test_mode` a frame of 2 <= len < 5 bytes is
reported, with the source id read from buffer offsets 3 and 4, an empty
payload, and rssi and snr from its last two bytes. Nothing is stated for a
one-byte frame in `echo_tx_with_payload` and `echo_test_mode`. -/
theorem short_frames_are_reported (rx_buf : List Nat) (hbuf : rx_buf.length = RX_BUF_LEN)
    (rx_len : Nat) (cnt : Int) :
    (echo_tx_with_payload_report 0 rx_buf 0 = some .noPacket ∧
      echo_test_report 0 rx_buf 0 cnt = some (.noPacket cnt) ∧
      (∀ f, rx_mode_cont_report 0 rx_buf 0 f = some none)) ∧
    (1 ≤ rx_len → rx_len < 7 →
      rx_mode_cont_report 0 rx_buf rx_len 1
        = some (some
            { length := (rx_len : Int) - 7
              rssi := int16_le (rx_buf.getD 0 0) (rx_buf.getD 1 0)
              snr := (int8 (rx_buf.getD 2 0) : ℚ) / 4
              frequency_error_hz :=
                some (int32_le (rx_buf.getD 3 0) (rx_buf.getD 4 0) (rx_buf.getD 5 0)
                  (rx_buf.getD 6 0))
              payload := [] })) ∧
    (∀ f, f ≠ 1 → 1 ≤ rx_len → rx_len < 3 →
      rx_mode_cont_report 0 rx_buf rx_len f
        = some (some
            { length := (rx_len : Int) - 3
              rssi := int16_le (rx_buf.getD 0 0) (rx_buf.getD 1 0)
              snr := (int8 (rx_buf.getD 2 0) : ℚ) / 4
              frequency_error_hz := none
              payload := [] })) ∧
    (2 ≤ rx_len → rx_len < 5 →
      echo_test_report 0 rx_buf rx_len cnt
        = some (.packet ((rx_buf.getD 4 0 <<< 8) ||| rx_buf.getD 3 0) []
            ((rx_buf.getD (rx_len - 2) 0 : Int) - 137)
            ((int8 (rx_buf.getD (rx_len - 1) 0) : ℚ) / 4))) := by
  unfold RX_BUF_LEN at hbuf
  have hnil : ∀ (k n : Nat), k ≤ n → (rx_buf.take k).drop n = [] := by
    intro k n hkn
    apply List.drop_eq_nil_of_le
    rw [List.length_take]
    omega
  refine ⟨⟨?_, ?_, fun f => ?_⟩, fun h1 h7 => ?_, fun f hf h1 h3 => ?_, fun h2 h5 => ?_⟩
  · simp [echo_tx_with_payload_report]
  · simp [echo_test_report]
  · simp [rx_mode_cont_report]
  · rw [rx_cont_report_freq_eq rx_buf rx_len (by omega) h1 (by omega), hnil rx_len 7 (by omega)]
  · rw [rx_cont_report_plain_eq rx_buf rx_len f hf (by omega) h1 (by omega),
      hnil rx_len 3 (by omega)]
  · rw [echo_test_report_eq rx_buf rx_len cnt (by omega) h2 (by omega),
      hnil (rx_len - 2) 5 (by omega)]

/-- Instance of `short_frames_are_reported` on the buffer `shortFrameBuf` and
the length 3, evaluated: `rx_mode_cont` reports rssi -1000, snr -2 and the
frequency error -100000 found after the frame; `echo_test_mode` reports the
source id 0x7960 found after the frame, rssi 0xFC - 137 and snr -2. -/
theorem short_frames_are_reported_witness :
    shortFrameBuf.length = RX_BUF_LEN ∧
    rx_mode_cont_report 0 shortFrameBuf 3 1
      = some (some
          { length := -4, rssi := -1000, snr := -2, frequency_error_hz := some (-100000),
            payload := [] }) ∧
    echo_test_report 0 shortFrameBuf 3 0 = some (.packet 0x7960 [] 115 (-2)) :=
  ⟨shortFrameBuf_length,
    ((short_frames_are_reported shortFrameBuf shortFrameBuf_length 3 0).2.1
      (by decide) (by decide)).trans
      (by
        rw [shortFrameBuf_getD.1, shortFrameBuf_getD.2.1, shortFrameBuf_getD.2.2.1,
          shortFrameBuf_getD.2.2.2.1, shortFrameBuf_getD.2.2.2.2.1,
          shortFrameBuf_getD.2.2.2.2.2.1, shortFrameBuf_getD.2.2.2.2.2.2]
        norm_num [int8, int16_le, int32_le]),
    ((short_frames_are_reported shortFrameBuf shortFrameBuf_length 3 0).2.2.2
      (by decide) (by decide)).trans
      (by
        rw [shortFrameBuf_getD.2.2.2.2.1, shortFrameBuf_getD.2.2.2.1,
          show (3 - 2 : Nat) = 1 from rfl, show (3 - 1 : Nat) = 2 from rfl,
          shortFrameBuf_getD.2.1, shortFrameBuf_getD.2.2.1]
        have hsrc : (0x79 <<< 8 ||| 0x60 : Nat) = 0x7960 := by decide
        norm_num [int8, hsrc])⟩

/-! ## `print_irq_flags_text` -/

theorem two_pow_and_ne_zero (j flags : Nat) : 2 ^ j &&& flags ≠ 0 ↔ flags.testBit j = true := by
  constructor
  · intro h
    by_contra hb
    apply h
    apply Nat.eq_of_testBit_eq
    intro i
    rw [Nat.testBit_and, Nat.testBit_two_pow, Nat.zero_testBit]
    by_cases hji : j = i
    · subst hji
      simp [hb]
    · simp [hji]
  · intro hb h
    have h1 : (2 ^ j &&& flags).testBit j = true := by
      rw [Nat.testBit_and, Nat.testBit_two_pow_self, hb]
      rfl
    rw [h, Nat.zero_testBit] at h1
    exact Bool.false_ne_true h1

theorem irq_filter_cons (c : Nat) (n : String) (t : List (Nat × String)) (flags : Nat) :
    (((c, n) :: t).filter (fun e => decide (e.1 &&& flags ≠ 0))).map Prod.snd
      = (if c &&& flags ≠ 0 then [n] else [])
        ++ (t.filter (fun e => decide (e.1 &&& flags ≠ 0))).map Prod.snd := by
  by_cases h : c &&& flags = 0 <;> simp [List.filter_cons, h]

/-- The output of `print_irq_flags_text` is the names selected from the table
followed by the line terminator when the mask is not zero. -/
theorem print_irq_flags_text_eq (k : IrqFlagsConsts) (flags : Nat) :
    print_irq_flags_text k flags = irqNames k flags ++ (if flags ≠ 0 then ["\n"] else []) := by
  unfold print_irq_flags_text irqNames irqFlagTable
  simp only [irq_filter_cons, List.filter_nil, List.map_nil, List.append_nil, List.append_assoc]

theorem irqNames_sublist (k : IrqFlagsConsts) (flags : Nat) :
    (irqNames k flags).Sublist ((irqFlagTable k).map Prod.snd) :=
  List.Sublist.map _ (List.filter_sublist _)

theorem irqTable_names (k : IrqFlagsConsts) :
    (irqFlagTable k).map Prod.snd
      = ["[IRQ_FLAGS_ASSERT]", "[IRQ_FLAGS_APP_TOKEN_ERROR]", "[IRQ_FLAGS_CRYPTO_ERROR]",
          "[IRQ_FLAGS_DOWNLINK_REQUEST_ACK]", "[IRQ_FLAGS_INITIALIZATION_COMPLETE]",
          "[IRQ_FLAGS_APP_TOKEN_CONFIRMED]", "[IRQ_FLAGS_CRYPTO_ESTABLISHED]",
          "[IRQ_FLAGS_DISCONNECTED]", "[IRQ_FLAGS_CONNECTED]", "[IRQ_FLAGS_RX_DONE]",
          "[IRQ_FLAGS_TX_ERROR]", "[IRQ_FLAGS_TX_DONE]", "[IRQ_FLAGS_RESET]",
          "[IRQ_FLAGS_WDOG_RESET]"] :=
  rfl

theorem irqNames_of_no_bit (k : IrqFlagsConsts) (flags : Nat)
    (h : ∀ e ∈ irqFlagTable k, e.1 &&& flags = 0) : irqNames k flags = [] := by
  unfold irqNames
  rw [List.map_eq_nil_iff, List.filter_eq_nil_iff]
  intro e he
  simp [h e he]

theorem irqNames_lor (k : IrqFlagsConsts) (flags other : Nat)
    (h : ∀ e ∈ irqFlagTable k, e.1 &&& other = 0) :
    irqNames k (flags ||| other) = irqNames k flags := by
  unfold irqNames
  congr 1
  apply List.filter_congr
  intro e he
  rw [Nat.and_or_distrib_left, h e he, Nat.or_zero]

/-- Whatever single bits the fourteen constants are, some nonzero 32-bit mask
has none of them. -/
theorem exists_unknown_mask (k : IrqFlagsConsts) (hk : SingleBits k) :
    ∃ flags, flags < 2 ^ 32 ∧ flags ≠ 0 ∧ ∀ e ∈ irqFlagTable k, e.1 &&& flags = 0 := by
  classical
  let S : Finset Nat := ((irqFlagTable k).map (fun e => Nat.log 2 e.1)).toFinset
  have hcard : S.card < (Finset.range 15).card := by
    have h1 : S.card ≤ ((irqFlagTable k).map (fun e => Nat.log 2 e.1)).length :=
      List.toFinset_card_le _
    have h2 : ((irqFlagTable k).map (fun e => Nat.log 2 e.1)).length = 14 := by
      rw [List.length_map]
      rfl
    rw [Finset.card_range]
    omega
  obtain ⟨j, hj, hjS⟩ : ∃ j, j ∈ Finset.range 15 ∧ j ∉ S := by
    by_contra hall
    have hsub : Finset.range 15 ⊆ S := by
      intro j hj
      by_contra hjS
      exact hall ⟨j, hj, hjS⟩
    have := Finset.card_le_card hsub
    omega
  rw [Finset.mem_range] at hj
  refine ⟨2 ^ j, Nat.pow_lt_pow_right (by decide) (by omega), by positivity, ?_⟩
  intro e he
  obtain ⟨i, _, hi⟩ := hk e he
  have hij : i ≠ j := by
    intro hij
    apply hjS
    rw [List.mem_toFinset, List.mem_map]
    exact ⟨e, he, by rw [hi, Nat.log_pow (by decide), hij]⟩
  by_contra hne
  rw [hi] at hne
  have := (two_pow_and_ne_zero i (2 ^ j)).1 hne
  rw [Nat.testBit_two_pow_of_ne (Ne.symm hij)] at this
  exact Bool.false_ne_true this

/-! ## Claims on `print_irq_flags_text` -/

/-- C9: for every mask, the names emitted by `print_irq_flags_text` are the
sub-sequence, in table order, of the fixed fourteen-entry table made of the
entries whose bit is set in the mask (the only other output is the line
terminator of a nonzero mask); each name appears at most once, bits outside the
table contribute no name, and mask 0 yields no name. -/
theorem print_irq_flags_text_names (k : IrqFlagsConsts) (flags : Nat) :
    print_irq_flags_text k flags = irqNames k flags ++ (if flags ≠ 0 then ["\n"] else []) ∧
    (irqNames k flags).Sublist
      ["[IRQ_FLAGS_ASSERT]", "[IRQ_FLAGS_APP_TOKEN_ERROR]", "[IRQ_FLAGS_CRYPTO_ERROR]",
        "[IRQ_FLAGS_DOWNLINK_REQUEST_ACK]", "[IRQ_FLAGS_INITIALIZATION_COMPLETE]",
        "[IRQ_FLAGS_APP_TOKEN_CONFIRMED]", "[IRQ_FLAGS_CRYPTO_ESTABLISHED]",
        "[IRQ_FLAGS_DISCONNECTED]", "[IRQ_FLAGS_CONNECTED]", "[IRQ_FLAGS_RX_DONE]",
        "[IRQ_FLAGS_TX_ERROR]", "[IRQ_FLAGS_TX_DONE]", "[IRQ_FLAGS_RESET]",
        "[IRQ_FLAGS_WDOG_RESET]"] ∧
    (∀ e ∈ irqFlagTable k, ∀ j, e.1 = 2 ^ j →
      (e.2 ∈ irqNames k flags ↔ flags.testBit j = true)) ∧
    (irqNames k flags).Nodup ∧
    (∀ other, (∀ e ∈ irqFlagTable k, e.1 &&& other = 0) →
      irqNames k (flags ||| other) = irqNames k flags) ∧
    irqNames k 0 = [] := by
  have hsub := irqNames_sublist k flags
  rw [irqTable_names] at hsub
  have hnodup : (irqNames k flags).Nodup := List.Nodup.sublist hsub (by decide)
  refine ⟨print_irq_flags_text_eq k flags, hsub, ?_, hnodup, irqNames_lor k flags, ?_⟩
  · intro e he j hj
    rw [← two_pow_and_ne_zero, ← hj]
    unfold irqNames
    rw [List.mem_map]
    constructor
    · rintro ⟨e1, he1, hname⟩
      rw [List.mem_filter] at he1
      have hinj : e1 = e := by
        have hnd : ((irqFlagTable k).map Prod.snd).Nodup := by
          rw [irqTable_names]
          decide
        exact List.inj_on_of_nodup_map hnd he1.1 he hname
      rw [← hinj]
      simpa using he1.2
    · intro hbit
      exact ⟨e, List.mem_filter.2 ⟨he, by simpa using hbit⟩, rfl⟩
  · exact irqNames_of_no_bit k 0 (fun e _ => Nat.and_zero e.1)

/-- Instance of `print_irq_flags_text_names` on the sample constants and the
mask 0x80000103, for the table entry of bit 8. -/
theorem print_irq_flags_text_names_witness :
    (((0x100 : Nat), "[IRQ_FLAGS_RX_DONE]") ∈ irqFlagTable sampleIrqFlags ∧
      (0x100 : Nat) = 2 ^ 8) ∧
    ("[IRQ_FLAGS_RX_DONE]" ∈ irqNames sampleIrqFlags 0x80000103
      ↔ (0x80000103 : Nat).testBit 8 = true) :=
  ⟨⟨by decide, by decide⟩,
    (print_irq_flags_text_names sampleIrqFlags 0x80000103).2.2.1
      ((0x100 : Nat), "[IRQ_FLAGS_RX_DONE]") (by decide) 8 (by decide)⟩

/-- C10 as stated fails on the mask 4 with the sample constants: none of the
fourteen conditions is true, yet the line terminator is emitted, because the
guard of the last `printf` is `flags != 0`. -/
theorem print_irq_flags_text_unknown_bit_newline :
    SingleBits sampleIrqFlags ∧
    (∀ e ∈ irqFlagTable sampleIrqFlags, e.1 &&& 4 = 0) ∧
    print_irq_flags_text sampleIrqFlags 4 = ["\n"] := by
  refine ⟨?_, by decide, by decide⟩
  intro e he
  simp only [irqFlagTable, sampleIrqFlags, List.mem_cons, List.mem_singleton,
    List.mem_nil_iff, or_false] at he
  rcases he with h | h | h | h | h | h | h | h | h | h | h | h | h | h <;> subst h
  · exact ⟨31, by decide, by decide⟩
  · exact ⟨21, by decide, by decide⟩
  · exact ⟨20, by decide, by decide⟩
  · exact ⟨19, by decide, by decide⟩
  · exact ⟨18, by decide, by decide⟩
  · exact ⟨17, by decide, by decide⟩
  · exact ⟨16, by decide, by decide⟩
  · exact ⟨13, by decide, by decide⟩
  · exact ⟨12, by decide, by decide⟩
  · exact ⟨8, by decide, by decide⟩
  · exact ⟨5, by decide, by decide⟩
  · exact ⟨4, by decide, by decide⟩
  · exact ⟨1, by decide, by decide⟩
  · exact ⟨0, by decide, by decide⟩

/-- C10, amended: `print_irq_flags_text` emits nothing at all exactly when the
mask is 0; for a nonzero mask in which none of the fourteen known conditions is
true it emits no name and the line terminator alone. -/
theorem print_irq_flags_text_silent (k : IrqFlagsConsts) (flags : Nat) :
    (print_irq_flags_text k flags = [] ↔ flags = 0) ∧
    ((∀ e ∈ irqFlagTable k, e.1 &&& flags = 0) → flags ≠ 0 →
      irqNames k flags = [] ∧ print_irq_flags_text k flags = ["\n"]) := by
  constructor
  · constructor
    · intro h
      by_contra hne
      rw [print_irq_flags_text_eq, if_pos hne] at h
      exact List.append_ne_nil_of_right_ne_nil _ (List.cons_ne_nil _ _) h
    · intro h
      subst h
      rw [print_irq_flags_text_eq, irqNames_of_no_bit k 0 (fun e _ => Nat.and_zero e.1)]
      rfl
  · intro hno hne
    refine ⟨irqNames_of_no_bit k flags hno, ?_⟩
    rw [print_irq_flags_text_eq, irqNames_of_no_bit k flags hno, if_pos hne]
    rfl

/-- Instance of `print_irq_flags_text_silent` on the sample constants and the
mask 0x4000. -/
theorem print_irq_flags_text_silent_witness :
    ((∀ e ∈ irqFlagTable sampleIrqFlags, e.1 &&& 0x4000 = 0) ∧ (0x4000 : Nat) ≠ 0) ∧
    irqNames sampleIrqFlags 0x4000 = [] ∧ print_irq_flags_text sampleIrqFlags 0x4000 = ["\n"] :=
  ⟨⟨by decide, by decide⟩,
    (print_irq_flags_text_silent sampleIrqFlags 0x4000).2 (by decide) (by decide)⟩

/-! ## The sample environment -/

theorem sampleEnv_wellFormed : ∀ k, (sampleEnv.ll_packet_recv_cont k).WellFormed := by
  intro k
  unfold sampleEnv RecvResult.WellFormed RX_BUF_LEN
  show (if k % 2 = 0 then (⟨0, List.replicate 255 0, 0⟩ : RecvResult)
      else ⟨-11, List.replicate 255 0, 0⟩).rx_buf.length = 255 ∧
    (if k % 2 = 0 then (⟨0, List.replicate 255 0, 0⟩ : RecvResult)
      else ⟨-11, List.replicate 255 0, 0⟩).rx_len ≤ 255
  split <;> exact ⟨List.length_replicate _ _, Nat.zero_le _⟩

theorem staleEnv_wellFormed : ∀ k, (staleEnv.ll_packet_recv k).WellFormed := by
  intro k
  unfold RecvResult.WellFormed RX_BUF_LEN
  show (if k = 0 then
        (⟨0, [83, 84, 65, 76, 69] ++ List.replicate 250 0, 5⟩ : RecvResult)
      else ⟨-106, [83, 84, 65, 76, 69] ++ List.replicate 250 0, 0⟩).rx_buf.length = 255 ∧
    (if k = 0 then
        (⟨0, [83, 84, 65, 76, 69] ++ List.replicate 250 0, 5⟩ : RecvResult)
      else ⟨-106, [83, 84, 65, 76, 69] ++ List.replicate 250 0, 0⟩).rx_len ≤ 255
  have hl : ([83, 84, 65, 76, 69] ++ List.replicate 250 0).length = 255 := by
    rw [List.length_append, List.length_replicate]
    rfl
  split
  · exact ⟨hl, by decide⟩
  · exact ⟨hl, Nat.zero_le _⟩

theorem sampleEnv_noData : ∀ n, (sampleEnv.ll_packet_recv_cont n).NoData := by
  intro n
  unfold RecvResult.NoData
  show (if n % 2 = 0 then (⟨0, List.replicate 255 0, 0⟩ : RecvResult)
      else ⟨-11, List.replicate 255 0, 0⟩).rv ≠ 0 ∨
    (if n % 2 = 0 then (⟨0, List.replicate 255 0, 0⟩ : RecvResult)
      else ⟨-11, List.replicate 255 0, 0⟩).rx_len = 0
  split <;> exact Or.inr rfl

theorem elapsed_ms_floor (b e : Timeval) :
    Int.floor (elapsed_ms b e)
      = ((e.tv_sec - b.tv_sec) * 1000000 + (e.tv_usec - b.tv_usec)) / 1000 := by
  unfold elapsed_ms
  have h := Rat.floor_intCast_div_natCast
    ((e.tv_sec - b.tv_sec) * 1000000 + (e.tv_usec - b.tv_usec)) 1000
  simpa using h

theorem elapsed_ms_ceil (b e : Timeval) :
    Int.ceil (elapsed_ms b e)
      = -((-((e.tv_sec - b.tv_sec) * 1000000 + (e.tv_usec - b.tv_usec))) / 1000) := by
  rw [Int.ceil_eq_iff]
  unfold elapsed_ms
  generalize (e.tv_sec - b.tv_sec) * 1000000 + (e.tv_usec - b.tv_usec) = t
  have h1 : (-t) / 1000 * 1000 ≤ -t := Int.ediv_mul_le _ (by decide)
  have h2 : -t < ((-t) / 1000 + 1) * 1000 := Int.lt_ediv_add_one_mul_self _ (by decide)
  constructor
  · rw [lt_div_iff₀ (by norm_num)]
    have : (-(-t / 1000) - 1) * 1000 < t := by omega
    exact_mod_cast this
  · rw [div_le_iff₀ (by norm_num)]
    have : t ≤ -(-t / 1000) * 1000 := by omega
    exact_mod_cast this

/-- The value of `timeval_diff_ms` when the microsecond field does not
decrease: the whole milliseconds of the elapsed time. -/
theorem timeval_diff_ms_of_le (b e : Timeval) (hu : b.tv_usec ≤ e.tv_usec)
    (hle : b.tv_sec * 1000000 + b.tv_usec ≤ e.tv_sec * 1000000 + e.tv_usec)
    (hd : (e.tv_sec - b.tv_sec) * 1000000 + (e.tv_usec - b.tv_usec) ≤ 4294967295000) :
    (timeval_diff_ms b e : Int)
      = ((e.tv_sec - b.tv_sec) * 1000000 + (e.tv_usec - b.tv_usec)) / 1000 := by
  unfold timeval_diff_ms
  simp only []
  rw [Int.tdiv_eq_ediv (by omega) (by decide), Int.toNat_of_nonneg (by omega)]
  omega

/-- The value of `timeval_diff_ms` when the microsecond field decreases: the
elapsed time rounded up to whole milliseconds. -/
theorem timeval_diff_ms_of_gt (b e : Timeval) (hu : e.tv_usec < b.tv_usec)
    (hle : b.tv_sec * 1000000 + b.tv_usec ≤ e.tv_sec * 1000000 + e.tv_usec)
    (hd : (e.tv_sec - b.tv_sec) * 1000000 + (e.tv_usec - b.tv_usec) ≤ 4294967295000) :
    (timeval_diff_ms b e : Int)
      = -((-((e.tv_sec - b.tv_sec) * 1000000 + (e.tv_usec - b.tv_usec))) / 1000) := by
  unfold timeval_diff_ms
  simp only []
  have hneg : Int.tdiv (e.tv_usec - b.tv_usec) 1000 = -((b.tv_usec - e.tv_usec) / 1000) := by
    have e1 : e.tv_usec - b.tv_usec = -(b.tv_usec - e.tv_usec) := by omega
    rw [e1, Int.neg_tdiv, Int.tdiv_eq_ediv (by omega) (by decide)]
  rw [hneg, Int.toNat_of_nonneg (by omega)]
  omega

/-! ## Claims on `timeval_diff_ms` -/

/-- C19 as stated fails for begin = (0 s, 704500 us), end = (4294968 s, 0 us):
the elapsed time is 4294967295.5 ms, below 2^32 ms, its whole part is
4294967295, but the microsecond field decreases, the sum rounds up to 2^32 and
the `uint32_t` result is 0. -/
theorem timeval_diff_ms_wraps_below_two_pow_32 :
    elapsed_ms ⟨0, 704500⟩ ⟨4294968, 0⟩ = 8589934591 / 2 ∧
    elapsed_ms ⟨0, 704500⟩ ⟨4294968, 0⟩ < 4294967296 ∧
    Int.floor (elapsed_ms ⟨0, 704500⟩ ⟨4294968, 0⟩) = 4294967295 ∧
    timeval_diff_ms ⟨0, 704500⟩ ⟨4294968, 0⟩ = 0 := by
  refine ⟨?_, ?_, ?_, by decide⟩
  · norm_num [elapsed_ms]
  · norm_num [elapsed_ms]
  · rw [elapsed_ms_floor]
    decide

/-- C19, amended: for all timestamps begin <= end whose microsecond fields lie
in [0, 999999] and whose true difference d is at most 2^32 - 1 ms,
`timeval_diff_ms` returns r with floor(d) <= r <= ceil(d); r = floor(d) when
end.tv_usec >= begin.tv_usec and r = ceil(d) otherwise, and r is off from d by
less than 1 ms. -/
theorem timeval_diff_ms_bounds (b e : Timeval)
    (_hb : 0 ≤ b.tv_usec ∧ b.tv_usec ≤ 999999) (_he : 0 ≤ e.tv_usec ∧ e.tv_usec ≤ 999999)
    (hle : b.tv_sec * 1000000 + b.tv_usec ≤ e.tv_sec * 1000000 + e.tv_usec)
    (hd : elapsed_ms b e ≤ 4294967295) :
    (b.tv_usec ≤ e.tv_usec → (timeval_diff_ms b e : Int) = Int.floor (elapsed_ms b e)) ∧
    (e.tv_usec < b.tv_usec → (timeval_diff_ms b e : Int) = Int.ceil (elapsed_ms b e)) ∧
    Int.floor (elapsed_ms b e) ≤ (timeval_diff_ms b e : Int) ∧
    (timeval_diff_ms b e : Int) ≤ Int.ceil (elapsed_ms b e) ∧
    |((timeval_diff_ms b e : Int) : ℚ) - elapsed_ms b e| < 1 := by
  have hT : (e.tv_sec - b.tv_sec) * 1000000 + (e.tv_usec - b.tv_usec) ≤ 4294967295000 := by
    unfold elapsed_ms at hd
    rw [div_le_iff₀ (by norm_num)] at hd
    have h1 : (((e.tv_sec - b.tv_sec) * 1000000 + (e.tv_usec - b.tv_usec) : Int) : ℚ)
        ≤ ((4294967295000 : Int) : ℚ) := by
      refine le_trans hd ?_
      norm_num
    exact_mod_cast h1
  have hfl : b.tv_usec ≤ e.tv_usec →
      (timeval_diff_ms b e : Int) = Int.floor (elapsed_ms b e) := by
    intro hu
    rw [elapsed_ms_floor]
    exact timeval_diff_ms_of_le b e hu hle hT
  have hce : e.tv_usec < b.tv_usec →
      (timeval_diff_ms b e : Int) = Int.ceil (elapsed_ms b e) := by
    intro hu
    rw [elapsed_ms_ceil]
    exact timeval_diff_ms_of_gt b e hu hle hT
  have hfc : Int.floor (elapsed_ms b e) ≤ Int.ceil (elapsed_ms b e) := Int.floor_le_ceil _
  have h1 := Int.floor_le (elapsed_ms b e)
  have h2 := Int.lt_floor_add_one (elapsed_ms b e)
  have h3 := Int.le_ceil (elapsed_ms b e)
  have h4 := Int.ceil_lt_add_one (elapsed_ms b e)
  refine ⟨hfl, hce, ?_, ?_, ?_⟩
  · rcases le_or_lt b.tv_usec e.tv_usec with hu | hu
    · rw [hfl hu]
    · rw [hce hu]
      exact hfc
  · rcases le_or_lt b.tv_usec e.tv_usec with hu | hu
    · rw [hfl hu]
      exact hfc
    · rw [hce hu]
  · rw [abs_lt]
    rcases le_or_lt b.tv_usec e.tv_usec with hu | hu
    · rw [hfl hu]
      constructor <;> linarith
    · rw [hce hu]
      constructor <;> linarith

/-- Instance of `timeval_diff_ms_bounds` on begin = (10 s, 900000 us) and
end = (12 s, 100500 us), where the microsecond field decreases. -/
theorem timeval_diff_ms_bounds_witness :
    (timeval_diff_ms ⟨10, 900000⟩ ⟨12, 100500⟩ : Int)
      = Int.ceil (elapsed_ms ⟨10, 900000⟩ ⟨12, 100500⟩) :=
  (timeval_diff_ms_bounds ⟨10, 900000⟩ ⟨12, 100500⟩ (by decide) (by decide) (by decide)
    (by norm_num [elapsed_ms])).2.1 (by decide)

/-! ## `rx_mode_cont` -/

/-- The report stage of `rx_mode_cont` is defined on every well-formed receive
outcome, and reports a packet only for return code 0 with a nonzero length. -/
theorem rx_mode_cont_report_defined (r : RecvResult) (hw : r.WellFormed) (f : Nat) :
    ∃ rep, rx_mode_cont_report r.rv r.rx_buf r.rx_len f = some rep ∧
      (rep ≠ none → r.rv = 0 ∧ r.rx_len > 0) := by
  obtain ⟨hb, hl⟩ := hw
  unfold RX_BUF_LEN at hb hl
  by_cases h : r.rv = 0 ∧ r.rx_len > 0
  · obtain ⟨h0, hpos⟩ := h
    rw [h0]
    by_cases hf : f = 1
    · subst hf
      exact ⟨_, rx_cont_report_freq_eq r.rx_buf r.rx_len (by omega) hpos (by omega),
        fun _ => ⟨rfl, hpos⟩⟩
    · exact ⟨_, rx_cont_report_plain_eq r.rx_buf r.rx_len f hf (by omega) hpos (by omega),
        fun _ => ⟨rfl, hpos⟩⟩
  · refine ⟨none, ?_, fun hne => absurd rfl hne⟩
    unfold rx_mode_cont_report
    rw [if_neg h]
    rfl

/-- An iteration of `rx_mode_cont` whose exit test is false runs the body to
its end on every well-formed receive outcome. -/
theorem rx_mode_cont_iteration_goes_on (NODATA : Int) (env : Env) (R f : Nat) (b : Timeval)
    (s : ContState) (h : rx_mode_cont_exit R b (env.gettimeofday s.nclock) = false)
    (hw : (env.ll_packet_recv_cont s.nrecv).WellFormed) :
    ∃ rep, rx_mode_cont_report (env.ll_packet_recv_cont s.nrecv).rv
        (env.ll_packet_recv_cont s.nrecv).rx_buf (env.ll_packet_recv_cont s.nrecv).rx_len f
        = some rep ∧
      (rep ≠ none → (env.ll_packet_recv_cont s.nrecv).rv = 0 ∧
        (env.ll_packet_recv_cont s.nrecv).rx_len > 0) ∧
      rx_mode_cont_iteration NODATA env R f b s
        = .goes_on
            { nclock := s.nclock + 1, nrecv := s.nrecv + 1,
              out := s.out ++ [Event.sleep_ms 50, Event.call_recv_cont (decide (1 = f))] ++
                (if NODATA ≠ -(env.ll_packet_recv_cont s.nrecv).rv then
                  print_ll_ifc_error "ll_packet_recv_cont" (env.ll_packet_recv_cont s.nrecv).rv
                 else []) ++ cont_report_events rep ++ [Event.sleep_ms 20] } := by
  obtain ⟨rep, hrep, hpk⟩ := rx_mode_cont_report_defined (env.ll_packet_recv_cont s.nrecv) hw f
  refine ⟨rep, hrep, hpk, ?_⟩
  unfold rx_mode_cont_iteration
  simp only [h, hrep]
  rfl

/-- As long as the exit test is false at the clock readings, the loop of
`rx_mode_cont` is still running after any number of iterations, whatever the
(well-formed) receive outcomes, with one clock reading and one receive call
made in each. -/
theorem rx_mode_cont_loop_goes_on (NODATA : Int) (env : Env) (R f : Nat) (b : Timeval)
    (hw : ∀ k, (env.ll_packet_recv_cont k).WellFormed) :
    ∀ (n : Nat) (s : ContState),
      (∀ j, j < n → rx_mode_cont_exit R b (env.gettimeofday (s.nclock + j)) = false) →
      ∃ s1, rx_mode_cont_loop NODATA env R f b n s = .goes_on s1 ∧
        s1.nrecv = s.nrecv + n ∧ s1.nclock = s.nclock + n := by
  intro n
  induction n with
  | zero =>
    intro s _
    exact ⟨s, rfl, rfl, rfl⟩
  | succ n ih =>
    intro s hclock
    have hex : rx_mode_cont_exit R b (env.gettimeofday s.nclock) = false := by
      have := hclock 0 (by omega)
      rwa [Nat.add_zero] at this
    obtain ⟨rep, _, _, hit⟩ :=
      rx_mode_cont_iteration_goes_on NODATA env R f b s hex (hw s.nrecv)
    obtain ⟨s1, h1, h2, h3⟩ := ih
      { nclock := s.nclock + 1, nrecv := s.nrecv + 1,
        out := s.out ++ [Event.sleep_ms 50, Event.call_recv_cont (decide (1 = f))] ++
          (if NODATA ≠ -(env.ll_packet_recv_cont s.nrecv).rv then
            print_ll_ifc_error "ll_packet_recv_cont" (env.ll_packet_recv_cont s.nrecv).rv
           else []) ++ cont_report_events rep ++ [Event.sleep_ms 20] }
      (fun j hj => by
        have := hclock (j + 1) (by omega)
        rwa [show s.nclock + (j + 1) = s.nclock + 1 + j by omega] at this)
    refine ⟨s1, ?_, by simp only [h2]; omega, by simp only [h3]; omega⟩
    rw [rx_mode_cont_loop, hit]
    exact h1

/-- C12: in an iteration of `rx_mode_cont` that passes the exit test, for every
(well-formed) receive outcome: the code `-LL_IFC_NACK_NODATA` prints no error
and no packet; every other negative code prints the error line (and no
packet); a non-negative code prints no error; and the iteration runs to its
end. Hence, as long as the exit test is false, the loop is still running after
any number of iterations, whatever the receive outcomes. -/
theorem rx_mode_cont_receive_results (NODATA : Int) (env : Env) (receive_time_ms f : Nat)
    (tv_begin : Timeval) (s : ContState) (hN : NODATA ≠ 0)
    (hw : ∀ k, (env.ll_packet_recv_cont k).WellFormed) :
    (rx_mode_cont_exit receive_time_ms tv_begin (env.gettimeofday s.nclock) = false →
      ∃ s1 errs pkt,
        rx_mode_cont_iteration NODATA env receive_time_ms f tv_begin s = .goes_on s1 ∧
        s1.nrecv = s.nrecv + 1 ∧
        s1.out = s.out ++ [Event.sleep_ms 50, Event.call_recv_cont (decide (1 = f))] ++ errs
          ++ pkt ++ [Event.sleep_ms 20] ∧
        ((env.ll_packet_recv_cont s.nrecv).rv = -NODATA → errs = [] ∧ pkt = []) ∧
        ((env.ll_packet_recv_cont s.nrecv).rv < 0 →
          (env.ll_packet_recv_cont s.nrecv).rv ≠ -NODATA →
          errs = [Event.ifc_error "ll_packet_recv_cont" (env.ll_packet_recv_cont s.nrecv).rv] ∧
            pkt = []) ∧
        (0 ≤ (env.ll_packet_recv_cont s.nrecv).rv → errs = [])) ∧
    (∀ n, (∀ j, j < n →
        rx_mode_cont_exit receive_time_ms tv_begin (env.gettimeofday (s.nclock + j)) = false) →
      ∃ s1, rx_mode_cont_loop NODATA env receive_time_ms f tv_begin n s = .goes_on s1 ∧
        s1.nrecv = s.nrecv + n) := by
  constructor
  · intro hex
    obtain ⟨rep, _, hpk, hit⟩ :=
      rx_mode_cont_iteration_goes_on NODATA env receive_time_ms f tv_begin s hex (hw s.nrecv)
    have hnone : (env.ll_packet_recv_cont s.nrecv).rv ≠ 0 → cont_report_events rep = [] := by
      intro hne
      cases rep with
      | none => rfl
      | some p => exact absurd (hpk (by simp)).1 hne
    refine ⟨_, _, cont_report_events rep, hit, rfl, rfl, ?_, ?_, ?_⟩
    · intro hrv
      refine ⟨?_, hnone (by rw [hrv]; exact neg_ne_zero.2 hN)⟩
      rw [hrv, neg_neg]
      simp
    · intro hneg hne
      have h1 : NODATA ≠ -(env.ll_packet_recv_cont s.nrecv).rv := by
        intro h
        apply hne
        rw [h, neg_neg]
      refine ⟨?_, hnone (by omega)⟩
      rw [if_pos h1]
      unfold print_ll_ifc_error
      rw [if_pos hneg]
    · intro hpos
      have h1 : ¬ ((env.ll_packet_recv_cont s.nrecv).rv < 0) := by omega
      unfold print_ll_ifc_error
      rw [if_neg h1]
      simp
  · intro n hclock
    obtain ⟨s1, h1, h2, _⟩ :=
      rx_mode_cont_loop_goes_on NODATA env receive_time_ms f tv_begin hw n s hclock
    exact ⟨s1, h1, h2⟩

/-- Instance of `rx_mode_cont_receive_results` on the sample environment, at
the second receive call, which returns the no-data code. -/
theorem rx_mode_cont_receive_results_witness :
    ∃ s1 errs pkt,
      rx_mode_cont_iteration sampleNoData sampleEnv 5000 1 (sampleEnv.gettimeofday 0)
        { nclock := 2, nrecv := 1, out := [] } = .goes_on s1 ∧
      s1.nrecv = 1 + 1 ∧
      s1.out = [] ++ [Event.sleep_ms 50, Event.call_recv_cont (decide (1 = 1))] ++ errs
        ++ pkt ++ [Event.sleep_ms 20] ∧
      ((sampleEnv.ll_packet_recv_cont 1).rv = -sampleNoData → errs = [] ∧ pkt = []) ∧
      ((sampleEnv.ll_packet_recv_cont 1).rv < 0 →
        (sampleEnv.ll_packet_recv_cont 1).rv ≠ -sampleNoData →
        errs = [Event.ifc_error "ll_packet_recv_cont" (sampleEnv.ll_packet_recv_cont 1).rv] ∧
          pkt = []) ∧
      (0 ≤ (sampleEnv.ll_packet_recv_cont 1).rv → errs = []) :=
  (rx_mode_cont_receive_results sampleNoData sampleEnv 5000 1 (sampleEnv.gettimeofday 0)
    { nclock := 2, nrecv := 1, out := [] } (by decide) sampleEnv_wellFormed).1 (by decide)

/-! ## `rx_mode_single` -/

theorem countP_isRecvCall_error (label : String) (rv : Int) :
    (print_ll_ifc_error label rv).countP Event.isRecvCall = 0 := by
  unfold print_ll_ifc_error
  split <;> rfl

theorem filter_isSingleRx_error (label : String) (rv : Int) :
    (print_ll_ifc_error label rv).filter Event.isSingleRx = [] := by
  unfold print_ll_ifc_error
  split <;> rfl

/-- The packet report of `rx_mode_single` for a receive outcome: the first
`rx_len` bytes of the buffer, or "No packets received". -/
theorem rx_mode_single_eq (env : Env) (hw : (env.ll_packet_recv 1).WellFormed) :
    rx_mode_single env
      = some ([Event.call_recv] ++ print_ll_ifc_error "ll_packet_recv" (env.ll_packet_recv 0).rv
          ++ [Event.sleep_s 1] ++ [Event.call_recv]
          ++ print_ll_ifc_error "ll_packet_recv" (env.ll_packet_recv 1).rv
          ++ [if (env.ll_packet_recv 1).rx_len > 0 then
                Event.single_rx_packet (env.ll_packet_recv 1).rx_len
                  ((env.ll_packet_recv 1).rx_buf.take (env.ll_packet_recv 1).rx_len)
              else Event.single_rx_none]) := by
  obtain ⟨hb, hl⟩ := hw
  unfold rx_mode_single
  by_cases hpos : (env.ll_packet_recv 1).rx_len > 0
  · simp only [hpos, if_true]
    rw [readRange_of_le _ 0 _ (by omega), List.drop_zero]
  · simp only [hpos, if_false]

/-- What the packet report of `rx_mode_single` depends on: the run makes
exactly two receive calls, and two runs whose second calls leave the same
`rx_len` and the same bytes below that length give the same packet report,
whatever the first calls returned, whatever the second return codes are and
whatever else the buffer holds. -/
theorem rx_mode_single_report_from_second (env1 env2 : Env)
    (hw1 : (env1.ll_packet_recv 1).WellFormed) (hw2 : (env2.ll_packet_recv 1).WellFormed)
    (hlen : (env1.ll_packet_recv 1).rx_len = (env2.ll_packet_recv 1).rx_len)
    (hbytes : (env1.ll_packet_recv 1).rx_buf.take (env1.ll_packet_recv 1).rx_len
      = (env2.ll_packet_recv 1).rx_buf.take (env2.ll_packet_recv 1).rx_len) :
    ∃ out1 out2, rx_mode_single env1 = some out1 ∧ rx_mode_single env2 = some out2 ∧
      out1.countP Event.isRecvCall = 2 ∧ out2.countP Event.isRecvCall = 2 ∧
      out1.filter Event.isSingleRx = out2.filter Event.isSingleRx ∧
      out1.filter Event.isSingleRx
        = [if (env1.ll_packet_recv 1).rx_len > 0 then
              Event.single_rx_packet (env1.ll_packet_recv 1).rx_len
                ((env1.ll_packet_recv 1).rx_buf.take (env1.ll_packet_recv 1).rx_len)
            else Event.single_rx_none] := by
  have hcount : ∀ env : Env, ∀ e : Event, e.isSingleRx = true →
      ([Event.call_recv] ++ print_ll_ifc_error "ll_packet_recv" (env.ll_packet_recv 0).rv
        ++ [Event.sleep_s 1] ++ [Event.call_recv]
        ++ print_ll_ifc_error "ll_packet_recv" (env.ll_packet_recv 1).rv ++ [e]).countP
          Event.isRecvCall = 2 ∧
      ([Event.call_recv] ++ print_ll_ifc_error "ll_packet_recv" (env.ll_packet_recv 0).rv
        ++ [Event.sleep_s 1] ++ [Event.call_recv]
        ++ print_ll_ifc_error "ll_packet_recv" (env.ll_packet_recv 1).rv ++ [e]).filter
          Event.isSingleRx = [e] := by
    intro env e he
    cases e <;> first
      | (constructor
         · simp [List.countP_append, countP_isRecvCall_error, List.countP_cons,
             Event.isRecvCall]
         · simp [List.filter_append, filter_isSingleRx_error, List.filter_cons,
             Event.isSingleRx])
      | (simp [Event.isSingleRx] at he)
  have hsingle : ∀ env : Env,
      (if (env.ll_packet_recv 1).rx_len > 0 then
          Event.single_rx_packet (env.ll_packet_recv 1).rx_len
            ((env.ll_packet_recv 1).rx_buf.take (env.ll_packet_recv 1).rx_len)
        else Event.single_rx_none).isSingleRx = true := by
    intro env
    split <;> rfl
  refine ⟨_, _, rx_mode_single_eq env1 hw1, rx_mode_single_eq env2 hw2,
    (hcount env1 _ (hsingle env1)).1, (hcount env2 _ (hsingle env2)).1, ?_,
    (hcount env1 _ (hsingle env1)).2⟩
  rw [(hcount env1 _ (hsingle env1)).2, (hcount env2 _ (hsingle env2)).2, hbytes, hlen]

/-- The runs against `staleEnv`, whose first attempt delivers a packet and whose
second sets the length to 0, and against `sampleEnv` give the same packet
report, "No packets received". -/
theorem rx_mode_single_report_from_second_witness :
    ∃ out1 out2, rx_mode_single staleEnv = some out1 ∧ rx_mode_single sampleEnv = some out2 ∧
      out1.countP Event.isRecvCall = 2 ∧ out2.countP Event.isRecvCall = 2 ∧
      out1.filter Event.isSingleRx = out2.filter Event.isSingleRx ∧
      out1.filter Event.isSingleRx
        = [if (staleEnv.ll_packet_recv 1).rx_len > 0 then
              Event.single_rx_packet (staleEnv.ll_packet_recv 1).rx_len
                ((staleEnv.ll_packet_recv 1).rx_buf.take (staleEnv.ll_packet_recv 1).rx_len)
            else Event.single_rx_none] :=
  rx_mode_single_report_from_second staleEnv sampleEnv
    (staleEnv_wellFormed 1) ⟨List.length_replicate _ _, Nat.zero_le _⟩ rfl rfl

/-! ## Claim on `rx_mode_single` -/

theorem recv_cont_error_zero (NODATA : Int) : recv_cont_error NODATA 0 = [] := by
  unfold recv_cont_error print_ll_ifc_error
  split <;> rfl

theorem recv_cont_error_nodata (NODATA : Int) : recv_cont_error NODATA (-NODATA) = [] := by
  unfold recv_cont_error
  rw [neg_neg, if_neg (fun h => h rfl)]

theorem countP_isNoPacket_recv_cont_error (NODATA rv : Int) :
    (recv_cont_error NODATA rv).countP Event.isNoPacket = 0 := by
  unfold recv_cont_error print_ll_ifc_error
  split_ifs <;> rfl

/-- The receive stage after a first attempt that returns success with zero
bytes: the grace wait, a second attempt, and the second result handed on. -/
theorem recv_stage_retry (NODATA : Int) (recv : Nat → RecvResult) (n g : Nat)
    (h : (recv n).rv = 0 ∧ (recv n).rx_len = 0) :
    recv_stage NODATA recv n g
      = { res := recv (n + 1), nrecv := n + 2,
          out := [Event.call_recv_cont false, Event.sleep_s g, Event.call_recv_cont false]
            ++ recv_cont_error NODATA (recv (n + 1)).rv } := by
  unfold recv_stage
  simp only [h, and_self, if_true, recv_cont_error_zero]
  rfl

/-- The receive stage after any other first attempt: no second attempt, the
first result handed on. -/
theorem recv_stage_single (NODATA : Int) (recv : Nat → RecvResult) (n g : Nat)
    (h : ¬ ((recv n).rv = 0 ∧ (recv n).rx_len = 0)) :
    recv_stage NODATA recv n g
      = { res := recv n, nrecv := n + 1,
          out := [Event.call_recv_cont false] ++ recv_cont_error NODATA (recv n).rv } := by
  unfold recv_stage
  simp only [h, if_false]

theorem recv_stage_out_head (NODATA : Int) (recv : Nat → RecvResult) (n g : Nat) :
    ∃ t, (recv_stage NODATA recv n g).out = Event.call_recv_cont false :: t := by
  by_cases h : (recv n).rv = 0 ∧ (recv n).rx_len = 0
  · rw [recv_stage_retry NODATA recv n g h]
    exact ⟨_, rfl⟩
  · rw [recv_stage_single NODATA recv n g h]
    exact ⟨_, rfl⟩

theorem recv_stage_noData (NODATA : Int) (recv : Nat → RecvResult) (n g : Nat)
    (hnd : ∀ k, (recv k).NoData) : (recv_stage NODATA recv n g).res.NoData := by
  by_cases h : (recv n).rv = 0 ∧ (recv n).rx_len = 0
  · rw [recv_stage_retry NODATA recv n g h]
    exact hnd (n + 1)
  · rw [recv_stage_single NODATA recv n g h]
    exact hnd n

theorem countP_isNoPacket_recv_stage (NODATA : Int) (recv : Nat → RecvResult) (n g : Nat) :
    (recv_stage NODATA recv n g).out.countP Event.isNoPacket = 0 := by
  by_cases h : (recv n).rv = 0 ∧ (recv n).rx_len = 0
  · rw [recv_stage_retry NODATA recv n g h]
    simp [List.countP_append, countP_isNoPacket_recv_cont_error, List.countP_cons,
      Event.isNoPacket]
  · rw [recv_stage_single NODATA recv n g h]
    simp [List.countP_append, countP_isNoPacket_recv_cont_error, List.countP_cons,
      Event.isNoPacket]

theorem echo_test_report_noData (r : RecvResult) (h : r.NoData) (cnt : Int) :
    echo_test_report r.rv r.rx_buf r.rx_len cnt = some (.noPacket cnt) := by
  unfold echo_test_report
  have hc : ¬ (r.rv = 0 ∧ r.rx_len > 0) := by
    rcases h with h | h
    · exact fun hh => h hh.1
    · exact fun hh => by omega
  rw [if_neg hc]
  rfl

theorem echo_tx_report_noData (r : RecvResult) (h : r.NoData) :
    echo_tx_with_payload_report r.rv r.rx_buf r.rx_len = some .noPacket := by
  unfold echo_tx_with_payload_report
  have hc : ¬ (r.rv = 0 ∧ r.rx_len > 0) := by
    rcases h with h | h
    · exact fun hh => h hh.1
    · exact fun hh => by omega
  rw [if_neg hc]
  rfl

theorem int16_wrap_small (x : Int) (h1 : -32768 ≤ x) (h2 : x ≤ 32767) : int16_wrap x = x := by
  unfold int16_wrap
  omega

/-! ## `echo_test_mode` -/

theorem countP_isNoPacket_send_stage (cnt r : Int) :
    (echo_test_send_stage cnt r).countP Event.isNoPacket = 0 := by
  unfold echo_test_send_stage print_ll_ifc_error
  split_ifs <;> rfl

/-- Every iteration of `echo_test_mode` that runs to its end increments the
counter once (as a `short`) and makes one send call. -/
theorem echo_test_iteration_counter (NODATA : Int) (env : Env) (s s1 : EchoTestState)
    (h : echo_test_iteration NODATA env s = some s1) :
    s1.cnt = int16_wrap (s.cnt + 1) ∧ s1.nsend = s.nsend + 1 := by
  unfold echo_test_iteration at h
  simp only [] at h
  cases hrep : echo_test_report
      (recv_stage NODATA env.ll_packet_recv_cont s.nrecv 5).res.rv
      (recv_stage NODATA env.ll_packet_recv_cont s.nrecv 5).res.rx_buf
      (recv_stage NODATA env.ll_packet_recv_cont s.nrecv 5).res.rx_len
      (int16_wrap (s.cnt + 1)) with
  | none =>
    rw [hrep] at h
    exact Option.noConfusion h
  | some rep =>
    rw [hrep] at h
    simp only [echo_test_finish, Option.some.injEq] at h
    subst h
    exact ⟨rfl, rfl⟩

/-- After `k <= 32767` iterations from session start the counter is `k` and
`k` sends have been made, whatever the transport did. -/
theorem echo_test_mode_cnt (NODATA : Int) (env : Env) :
    ∀ (k : Nat), k ≤ 32767 → ∀ s, echo_test_mode NODATA env k = some s →
      s.cnt = k ∧ s.nsend = k := by
  intro k
  induction k with
  | zero =>
    intro _ s h
    simp only [echo_test_mode, Option.some.injEq] at h
    subst h
    exact ⟨rfl, rfl⟩
  | succ k ih =>
    intro hk s h
    rw [echo_test_mode] at h
    cases hprev : echo_test_mode NODATA env k with
    | none =>
      rw [hprev] at h
      exact Option.noConfusion h
    | some s0 =>
      rw [hprev] at h
      obtain ⟨h1, h2⟩ := ih (by omega) s0 hprev
      obtain ⟨h3, h4⟩ := echo_test_iteration_counter NODATA env s0 s h
      rw [h3, h4, h1, h2, int16_wrap_small _ (by omega) (by omega)]
      exact ⟨by push_cast; ring, rfl⟩

/-- An iteration of `echo_test_mode` whose receive stage ends without data
prints the "no packet" line with the incremented counter. -/
theorem echo_test_iteration_noData (NODATA : Int) (env : Env) (s : EchoTestState)
    (h : (recv_stage NODATA env.ll_packet_recv_cont s.nrecv 5).res.NoData) :
    echo_test_iteration NODATA env s
      = some
          { cnt := int16_wrap (s.cnt + 1), nsend := s.nsend + 1,
            nrecv := (recv_stage NODATA env.ll_packet_recv_cont s.nrecv 5).nrecv,
            out := s.out ++ echo_test_send_stage s.cnt (env.ll_packet_send_queue s.nsend)
              ++ (recv_stage NODATA env.ll_packet_recv_cont s.nrecv 5).out
              ++ [Event.echo_test_rx (.noPacket (int16_wrap (s.cnt + 1))), Event.sleep_s 1] } := by
  unfold echo_test_iteration
  simp only [echo_test_report_noData _ h, echo_test_finish]

/-! ## Claims on `echo_tx_with_payload` and `echo_test_mode` -/

/-- C14: in `echo_tx_with_payload`, for every send return code r: if r < 0 or
r > 1 the output is the send call and the line "Failed to send packet" and the
run ends in `exit(EXIT_FAILURE)`, with no receive attempt; if r = 0 the line
"Message sent (send queue now full)" is printed and a receive attempt follows;
if r = 1 the line "Message sent" is printed and a receive attempt follows. -/
theorem echo_tx_send_codes (NODATA : Int) (env : Env) (buf : List Nat) (len : Nat) :
    ((env.ll_packet_send_queue 0 < 0 ∨ env.ll_packet_send_queue 0 > 1) →
      echo_tx_with_payload NODATA env buf len
        = ([Event.call_send_queue (buf.take len),
            Event.failed_to_send (env.ll_packet_send_queue 0)], RunEnd.exit_failure)) ∧
    (env.ll_packet_send_queue 0 = 0 →
      ∃ tail e, echo_tx_with_payload NODATA env buf len
        = ([Event.call_send_queue (buf.take len), Event.message_sent_queue_full,
            Event.call_recv_cont false] ++ tail, e) ∧ e ≠ RunEnd.exit_failure) ∧
    (env.ll_packet_send_queue 0 = 1 →
      ∃ tail e, echo_tx_with_payload NODATA env buf len
        = ([Event.call_send_queue (buf.take len), Event.message_sent,
            Event.call_recv_cont false] ++ tail, e) ∧ e ≠ RunEnd.exit_failure) := by
  have hacc : ∀ m : Event, ¬ (env.ll_packet_send_queue 0 < 0 ∨ env.ll_packet_send_queue 0 > 1) →
      message_sent_line (env.ll_packet_send_queue 0) = m →
      ∃ tail e, echo_tx_with_payload NODATA env buf len
        = ([Event.call_send_queue (buf.take len), m, Event.call_recv_cont false] ++ tail, e) ∧
          e ≠ RunEnd.exit_failure := by
    intro m hr hm
    obtain ⟨t, ht⟩ := recv_stage_out_head NODATA env.ll_packet_recv_cont 0 1
    unfold echo_tx_with_payload
    simp only [hr, if_false, hm, ht]
    cases echo_tx_with_payload_report
        (recv_stage NODATA env.ll_packet_recv_cont 0 1).res.rv
        (recv_stage NODATA env.ll_packet_recv_cont 0 1).res.rx_buf
        (recv_stage NODATA env.ll_packet_recv_cont 0 1).res.rx_len with
    | none => exact ⟨t, RunEnd.undefined, rfl, by decide⟩
    | some rep => exact ⟨t ++ [Event.echo_tx_rx rep], RunEnd.returned, by simp [echo_tx_finish],
        by decide⟩
  refine ⟨fun h => ?_, fun h => ?_, fun h => ?_⟩
  · unfold echo_tx_with_payload
    simp only [h, if_true]
    rfl
  · exact hacc _ (by omega) (by rw [h]; rfl)
  · exact hacc _ (by omega) (by rw [h]; rfl)

/-- Instance of `echo_tx_send_codes` on the sample transport with every send
refused with code -6, and on the sample transports with codes 0 and 1. -/
theorem echo_tx_send_codes_witness :
    echo_tx_with_payload sampleNoData { sampleEnv with ll_packet_send_queue := fun _ => -6 }
        [72, 105] 2
      = ([Event.call_send_queue ([72, 105].take 2), Event.failed_to_send (-6)],
          RunEnd.exit_failure) ∧
    (∃ tail e, echo_tx_with_payload sampleNoData sampleEnv [72, 105] 2
      = ([Event.call_send_queue ([72, 105].take 2), Event.message_sent_queue_full,
          Event.call_recv_cont false] ++ tail, e) ∧ e ≠ RunEnd.exit_failure) ∧
    (∃ tail e, echo_tx_with_payload sampleNoData roomLeftEnv [72, 105] 2
      = ([Event.call_send_queue ([72, 105].take 2), Event.message_sent,
          Event.call_recv_cont false] ++ tail, e) ∧ e ≠ RunEnd.exit_failure) :=
  ⟨(echo_tx_send_codes sampleNoData { sampleEnv with ll_packet_send_queue := fun _ => -6 }
      [72, 105] 2).1 (Or.inl (by decide)),
    (echo_tx_send_codes sampleNoData sampleEnv [72, 105] 2).2.1 rfl,
    (echo_tx_send_codes sampleNoData roomLeftEnv [72, 105] 2).2.2 rfl⟩

/-- C15, the code at the failing inputs: in `echo_test_mode` a send that
returns 1 (accepted, room left) prints nothing, neither the Tx line nor an
error, and so does a send that returns 2; the Tx line is printed for code 0
only and the error line for negative codes only. The first iteration against a
transport whose sends return 1 shows the whole output. -/
theorem echo_test_send_code_one_silent :
    echo_test_send_stage 0 1 = [Event.call_send_queue (echo_test_payload 0)] ∧
    echo_test_send_stage 0 2 = [Event.call_send_queue (echo_test_payload 0)] ∧
    echo_test_send_stage 0 0 = [Event.call_send_queue (echo_test_payload 0), Event.tx_line 0] ∧
    echo_test_send_stage 0 (-6)
      = [Event.call_send_queue (echo_test_payload 0),
          Event.ifc_error "ll_packet_send_queue" (-6)] ∧
    echo_test_mode sampleNoData roomLeftEnv 1
      = some
          { cnt := 1, nsend := 1, nrecv := 2,
            out := [Event.call_send_queue [0, 0, 76, 105, 110, 107, 45, 76, 97, 98, 115, 33],
              Event.call_recv_cont false, Event.sleep_s 5, Event.call_recv_cont false,
              Event.echo_test_rx (.noPacket 1), Event.sleep_s 1] } := by
  decide

/-- C16 as stated fails when the first receive attempt returns the no-data
code: against `noDataFirstEnv`, whose second receive call would deliver a
frame, `echo_tx_with_payload` and the first iteration of `echo_test_mode` make
one receive attempt and report "no packet". -/
theorem no_retry_after_nodata_code :
    (noDataFirstEnv.ll_packet_recv_cont 0).rv = -sampleNoData ∧
    echo_tx_with_payload sampleNoData noDataFirstEnv [72, 105] 2
      = ([Event.call_send_queue [72, 105], Event.message_sent_queue_full,
          Event.call_recv_cont false, Event.echo_tx_rx .noPacket], RunEnd.returned) ∧
    echo_test_mode sampleNoData noDataFirstEnv 1
      = some
          { cnt := 1, nsend := 1, nrecv := 1,
            out := [Event.call_send_queue [0, 0, 76, 105, 110, 107, 45, 76, 97, 98, 115, 33],
              Event.tx_line 0, Event.call_recv_cont false,
              Event.echo_test_rx (.noPacket 1), Event.sleep_s 1] } := by
  decide

/-- C16, amended: in `echo_tx_with_payload` (after an accepted send) and in
every iteration of `echo_test_mode`, a second receive attempt is made, after
the grace wait, exactly when the first attempt returns success (code 0) with
zero bytes, and then the report ("no packet" or the decoded packet) is the one
of the second attempt's result; when the first attempt returns a nonzero code,
the no-data code `-LL_IFC_NACK_NODATA` among them, "no packet" is reported
after that single attempt. -/
theorem second_attempt_only_after_empty_success (NODATA : Int) (env : Env) (buf : List Nat)
    (len : Nat) (s : EchoTestState) :
    (¬ (env.ll_packet_send_queue 0 < 0 ∨ env.ll_packet_send_queue 0 > 1) →
      ((env.ll_packet_recv_cont 0).rv = 0 ∧ (env.ll_packet_recv_cont 0).rx_len = 0 →
        echo_tx_with_payload NODATA env buf len
          = echo_tx_finish
              ([Event.call_send_queue (buf.take len),
                  message_sent_line (env.ll_packet_send_queue 0),
                  Event.call_recv_cont false, Event.sleep_s 1, Event.call_recv_cont false]
                ++ recv_cont_error NODATA (env.ll_packet_recv_cont 1).rv)
              (echo_tx_with_payload_report (env.ll_packet_recv_cont 1).rv
                (env.ll_packet_recv_cont 1).rx_buf (env.ll_packet_recv_cont 1).rx_len)) ∧
      (¬ ((env.ll_packet_recv_cont 0).rv = 0 ∧ (env.ll_packet_recv_cont 0).rx_len = 0) →
        echo_tx_with_payload NODATA env buf len
          = echo_tx_finish
              ([Event.call_send_queue (buf.take len),
                  message_sent_line (env.ll_packet_send_queue 0), Event.call_recv_cont false]
                ++ recv_cont_error NODATA (env.ll_packet_recv_cont 0).rv)
              (echo_tx_with_payload_report (env.ll_packet_recv_cont 0).rv
                (env.ll_packet_recv_cont 0).rx_buf (env.ll_packet_recv_cont 0).rx_len)) ∧
      ((env.ll_packet_recv_cont 0).rv ≠ 0 →
        echo_tx_with_payload NODATA env buf len
          = ([Event.call_send_queue (buf.take len),
                message_sent_line (env.ll_packet_send_queue 0), Event.call_recv_cont false]
              ++ recv_cont_error NODATA (env.ll_packet_recv_cont 0).rv
              ++ [Event.echo_tx_rx .noPacket], RunEnd.returned))) ∧
    ((env.ll_packet_recv_cont s.nrecv).rv = 0 ∧ (env.ll_packet_recv_cont s.nrecv).rx_len = 0 →
      echo_test_iteration NODATA env s
        = echo_test_finish (int16_wrap (s.cnt + 1)) (s.nsend + 1) (s.nrecv + 2)
            (s.out ++ echo_test_send_stage s.cnt (env.ll_packet_send_queue s.nsend)
              ++ [Event.call_recv_cont false, Event.sleep_s 5, Event.call_recv_cont false]
              ++ recv_cont_error NODATA (env.ll_packet_recv_cont (s.nrecv + 1)).rv)
            (echo_test_report (env.ll_packet_recv_cont (s.nrecv + 1)).rv
              (env.ll_packet_recv_cont (s.nrecv + 1)).rx_buf
              (env.ll_packet_recv_cont (s.nrecv + 1)).rx_len (int16_wrap (s.cnt + 1)))) ∧
    (¬ ((env.ll_packet_recv_cont s.nrecv).rv = 0 ∧ (env.ll_packet_recv_cont s.nrecv).rx_len = 0) →
      echo_test_iteration NODATA env s
        = echo_test_finish (int16_wrap (s.cnt + 1)) (s.nsend + 1) (s.nrecv + 1)
            (s.out ++ echo_test_send_stage s.cnt (env.ll_packet_send_queue s.nsend)
              ++ [Event.call_recv_cont false]
              ++ recv_cont_error NODATA (env.ll_packet_recv_cont s.nrecv).rv)
            (echo_test_report (env.ll_packet_recv_cont s.nrecv).rv
              (env.ll_packet_recv_cont s.nrecv).rx_buf
              (env.ll_packet_recv_cont s.nrecv).rx_len (int16_wrap (s.cnt + 1)))) ∧
    ((env.ll_packet_recv_cont s.nrecv).rv ≠ 0 →
      echo_test_iteration NODATA env s
        = some
            { cnt := int16_wrap (s.cnt + 1), nsend := s.nsend + 1, nrecv := s.nrecv + 1,
              out := s.out ++ echo_test_send_stage s.cnt (env.ll_packet_send_queue s.nsend)
                ++ ([Event.call_recv_cont false]
                  ++ recv_cont_error NODATA (env.ll_packet_recv_cont s.nrecv).rv)
                ++ [Event.echo_test_rx (.noPacket (int16_wrap (s.cnt + 1))),
                    Event.sleep_s 1] }) := by
  refine ⟨fun hacc => ⟨fun h => ?_, fun h => ?_, fun h => ?_⟩, fun h => ?_, fun h => ?_,
    fun h => ?_⟩
  · unfold echo_tx_with_payload
    simp only [hacc, if_false, recv_stage_retry NODATA env.ll_packet_recv_cont 0 1 h]
    rfl
  · unfold echo_tx_with_payload
    simp only [hacc, if_false, recv_stage_single NODATA env.ll_packet_recv_cont 0 1 h]
    rfl
  · have hs := recv_stage_single NODATA env.ll_packet_recv_cont 0 1 (fun hh => h hh.1)
    unfold echo_tx_with_payload
    simp only [hacc, if_false, hs, echo_tx_report_noData _ (Or.inl h), echo_tx_finish]
    rfl
  · unfold echo_test_iteration
    simp only [recv_stage_retry NODATA env.ll_packet_recv_cont s.nrecv 5 h, List.append_assoc]
  · unfold echo_test_iteration
    simp only [recv_stage_single NODATA env.ll_packet_recv_cont s.nrecv 5 h, List.append_assoc]
  · have hs := recv_stage_single NODATA env.ll_packet_recv_cont s.nrecv 5 (fun hh => h hh.1)
    have hnd : (recv_stage NODATA env.ll_packet_recv_cont s.nrecv 5).res.NoData := by
      rw [hs]
      exact Or.inl h
    rw [echo_test_iteration_noData NODATA env s hnd, hs]

/-- Instance of `second_attempt_only_after_empty_success` on `noDataFirstEnv`,
whose first receive call returns the no-data code. -/
theorem second_attempt_only_after_empty_success_witness :
    echo_tx_with_payload sampleNoData noDataFirstEnv [72, 105] 2
      = ([Event.call_send_queue ([72, 105].take 2),
            message_sent_line (noDataFirstEnv.ll_packet_send_queue 0), Event.call_recv_cont false]
          ++ recv_cont_error sampleNoData (noDataFirstEnv.ll_packet_recv_cont 0).rv
          ++ [Event.echo_tx_rx .noPacket], RunEnd.returned) :=
  ((second_attempt_only_after_empty_success sampleNoData noDataFirstEnv [72, 105] 2
    echo_test_init).1 (by decide)).2.2 (by decide)

/-- The run of `echo_test_mode` against a transport that never returns data:
defined for every number of iterations up to 32767, with one "no packet" line
an iteration. -/
theorem echo_test_mode_noData (NODATA : Int) (env : Env)
    (hnd : ∀ n, (env.ll_packet_recv_cont n).NoData) :
    ∀ (k : Nat), k ≤ 32767 → ∃ s, echo_test_mode NODATA env k = some s ∧
      s.cnt = k ∧ s.nsend = k ∧ s.out.countP Event.isNoPacket = k := by
  intro k
  induction k with
  | zero =>
    intro _
    exact ⟨echo_test_init, rfl, rfl, rfl, rfl⟩
  | succ k ih =>
    intro hk
    obtain ⟨s, hs, hc, hn, hcount⟩ := ih (by omega)
    have hstage := recv_stage_noData NODATA env.ll_packet_recv_cont s.nrecv 5 hnd
    have hstep : echo_test_mode NODATA env (k + 1) = echo_test_iteration NODATA env s := by
      rw [echo_test_mode, hs]
    have hrun := hstep.trans (echo_test_iteration_noData NODATA env s hstage)
    refine ⟨_, hrun, ?_, ?_, ?_⟩
    · simp only [hc]
      rw [int16_wrap_small _ (by omega) (by omega)]
      push_cast
      ring
    · simp only [hn]
    · simp only [List.countP_append, hcount, countP_isNoPacket_send_stage,
        countP_isNoPacket_recv_stage, List.countP_cons, List.countP_nil, Event.isNoPacket]
      simp

/-- C17: for every K <= 32767, K iterations of `echo_test_mode` from session
start leave the counter equal to K, with K sends made, whatever the send and
receive outcomes; and against a transport that never returns data the run is
defined and reports "no packet" exactly K times. -/
theorem echo_test_mode_counter (NODATA : Int) (env : Env) (K : Nat) (hK : K ≤ 32767) :
    (∀ s, echo_test_mode NODATA env K = some s → s.cnt = K ∧ s.nsend = K) ∧
    ((∀ n, (env.ll_packet_recv_cont n).NoData) →
      ∃ s, echo_test_mode NODATA env K = some s ∧ s.cnt = K ∧ s.nsend = K ∧
        s.out.countP Event.isNoPacket = K) :=
  ⟨echo_test_mode_cnt NODATA env K hK, fun hnd => echo_test_mode_noData NODATA env hnd K hK⟩

/-- Instance of `echo_test_mode_counter` on the sample transport and
K = 32767. -/
theorem echo_test_mode_counter_witness :
    (32767 : Nat) ≤ 32767 ∧ (∀ n, (sampleEnv.ll_packet_recv_cont n).NoData) ∧
    ∃ s, echo_test_mode sampleNoData sampleEnv 32767 = some s ∧ s.cnt = (32767 : Nat) ∧
      s.nsend = 32767 ∧ s.out.countP Event.isNoPacket = 32767 :=
  ⟨Nat.le_refl _, sampleEnv_noData,
    (echo_test_mode_counter sampleNoData sampleEnv 32767 (Nat.le_refl _)).2 sampleEnv_noData⟩

/-- C20: in iteration k < 32767 of `echo_test_mode` (k iterations done, the
k-th send returning 0, the receive stage ending without data) the Tx line
shows k and the "no packet" line of the same iteration shows k+1: the counter
is incremented between the send and the receive report, so the two numbers
differ. -/
theorem echo_test_sequence_numbers (NODATA : Int) (env : Env) (k : Nat) (s : EchoTestState)
    (hk : k < 32767) (hrun : echo_test_mode NODATA env k = some s)
    (hsend : env.ll_packet_send_queue k = 0)
    (hnd : (recv_stage NODATA env.ll_packet_recv_cont s.nrecv 5).res.NoData) :
    echo_test_mode NODATA env (k + 1)
      = some
          { cnt := (k : Int) + 1, nsend := k + 1,
            nrecv := (recv_stage NODATA env.ll_packet_recv_cont s.nrecv 5).nrecv,
            out := s.out
              ++ [Event.call_send_queue (echo_test_payload k), Event.tx_line k]
              ++ (recv_stage NODATA env.ll_packet_recv_cont s.nrecv 5).out
              ++ [Event.echo_test_rx (.noPacket ((k : Int) + 1)), Event.sleep_s 1] } ∧
    (recv_stage NODATA env.ll_packet_recv_cont s.nrecv 5).out.countP Event.isNoPacket = 0 ∧
    (k : Int) ≠ (k : Int) + 1 := by
  obtain ⟨hc, hn⟩ := echo_test_mode_cnt NODATA env k (by omega) s hrun
  refine ⟨?_, countP_isNoPacket_recv_stage _ _ _ _, by omega⟩
  rw [echo_test_mode, hrun]
  show echo_test_iteration NODATA env s = _
  rw [echo_test_iteration_noData NODATA env s hnd, hn, hsend, hc,
    int16_wrap_small _ (by omega) (by omega)]
  rfl

/-- Instance of `echo_test_sequence_numbers` on the sample transport at
iteration 0: the Tx line shows 0 and the "no packet" line shows 1. -/
theorem echo_test_sequence_numbers_witness :
    echo_test_mode sampleNoData sampleEnv (0 + 1)
      = some
          { cnt := ((0 : Nat) : Int) + 1, nsend := 0 + 1,
            nrecv := (recv_stage sampleNoData sampleEnv.ll_packet_recv_cont
              echo_test_init.nrecv 5).nrecv,
            out := echo_test_init.out
              ++ [Event.call_send_queue (echo_test_payload (0 : Nat)), Event.tx_line (0 : Nat)]
              ++ (recv_stage sampleNoData sampleEnv.ll_packet_recv_cont
                  echo_test_init.nrecv 5).out
              ++ [Event.echo_test_rx (.noPacket (((0 : Nat) : Int) + 1)), Event.sleep_s 1] } :=
  (echo_test_sequence_numbers sampleNoData sampleEnv 0 echo_test_init (by decide) rfl rfl
    (recv_stage_noData _ _ _ _ sampleEnv_noData)).1

/-! ## The `--irq_flags_clear` command -/

theorem lor_bytes (b0 b1 b2 b3 : Nat) (h1 : b1 < 256) (h2 : b2 < 256) (h3 : b3 < 256) :
    b3 ||| b2 * 256 ||| b1 * 65536 ||| b0 * 16777216
      = b0 * 16777216 + b1 * 65536 + b2 * 256 + b3 := by
  have e1 : b3 ||| b2 * 256 = b2 * 256 + b3 := by
    rw [Nat.lor_comm, Nat.mul_comm b2 256]
    exact (Nat.mul_add_lt_is_or (i := 8) (by simpa using h3) b2).symm
  have e2 : (b2 * 256 + b3) ||| b1 * 65536 = b1 * 65536 + (b2 * 256 + b3) := by
    rw [Nat.lor_comm, Nat.mul_comm b1 65536]
    exact (Nat.mul_add_lt_is_or (i := 16) (by norm_num; omega) b1).symm
  have e3 : (b1 * 65536 + (b2 * 256 + b3)) ||| b0 * 16777216
      = b0 * 16777216 + (b1 * 65536 + (b2 * 256 + b3)) := by
    rw [Nat.lor_comm, Nat.mul_comm b0 16777216]
    exact (Nat.mul_add_lt_is_or (i := 24) (by norm_num; omega) b0).symm
  rw [e1, e2, e3]
  omega

theorem char_to_uint32_low (sgn : Bool) (b : Nat) (hb : b < 256)
    (h : sgn = true → b < 128) : char_to_uint32 sgn b = b := by
  unfold char_to_uint32
  have hc : ¬ (sgn = true ∧ 128 ≤ b % 256) := by
    rintro ⟨hs, h128⟩
    have := h hs
    omega
  rw [if_neg hc]
  omega

theorem char_to_uint32_shl24 (sgn : Bool) (b : Nat) (hb : b < 256) :
    (char_to_uint32 sgn b <<< 24) % 4294967296 = b * 16777216 := by
  unfold char_to_uint32
  rw [Nat.shiftLeft_eq]
  split_ifs <;> omega

/-- The mask computed by the four assignments on four bytes: the big-endian
value, provided that, when plain `char` is signed, the three low bytes are
below 0x80. -/
theorem irq_flags_to_clear_eq (sgn : Bool) (buf : List Nat)
    (h0 : buf.getD 0 0 < 256) (h1 : buf.getD 1 0 < 256) (h2 : buf.getD 2 0 < 256)
    (h3 : buf.getD 3 0 < 256)
    (hs : sgn = true → buf.getD 1 0 < 128 ∧ buf.getD 2 0 < 128 ∧ buf.getD 3 0 < 128) :
    irq_flags_to_clear sgn buf
      = buf.getD 0 0 * 16777216 + buf.getD 1 0 * 65536 + buf.getD 2 0 * 256 + buf.getD 3 0 := by
  unfold irq_flags_to_clear
  simp only []
  rw [char_to_uint32_shl24 sgn _ h0, char_to_uint32_low sgn _ h1 (fun h => (hs h).1),
    char_to_uint32_low sgn _ h2 (fun h => (hs h).2.1),
    char_to_uint32_low sgn _ h3 (fun h => (hs h).2.2), Nat.shiftLeft_eq, Nat.shiftLeft_eq,
    Nat.mod_eq_of_lt (by omega), Nat.mod_eq_of_lt (by omega)]
  exact lor_bytes _ _ _ _ h1 h2 h3

/-- The mask passed to `ll_irq_flags` for an eight-character hexadecimal
argument is the big-endian value of the four decoded bytes when plain `char`
is unsigned, and, when it is signed, when the three low bytes are below 0x80. -/
theorem irq_flags_clear_mask_eq (sgn : Bool) (text : List Nat) (hlen : text.length = 8)
    (hhex : ∀ c ∈ text, isHexChar c)
    (hs : sgn = true → ∀ i, 1 ≤ i → i < 4 →
      16 * hexval (text.getD (2 * i) 0) + hexval (text.getD (2 * i + 1) 0) < 128) :
    irq_flags_clear_mask sgn (cstr text)
      = some ((16 * hexval (text.getD 0 0) + hexval (text.getD 1 0)) * 16777216
          + (16 * hexval (text.getD 2 0) + hexval (text.getD 3 0)) * 65536
          + (16 * hexval (text.getD 4 0) + hexval (text.getD 5 0)) * 256
          + (16 * hexval (text.getD 6 0) + hexval (text.getD 7 0))) := by
  obtain ⟨out, hrun, _, hget⟩ :=
    buffer_to_hex_valid text (by rw [hlen]) hhex (by rw [hlen]; decide)
  have hnz : ∀ c ∈ text, c ≠ 0 := fun c hc => isHexChar_ne_zero (hhex c hc)
  have hb : ∀ p, p < 4 → out.getD p 0
      = 16 * hexval (text.getD (2 * p) 0) + hexval (text.getD (2 * p + 1) 0) := by
    intro p hp
    rw [hget p, hlen, if_pos (by omega)]
  have hlt : ∀ c d : Nat, 16 * hexval c + hexval d < 256 := by
    intro c d
    have := @hexval_lt c
    have := @hexval_lt d
    omega
  unfold irq_flags_clear_mask
  simp only [strlen_cstr text hnz, hlen, hrun]
  rw [if_neg (by decide), irq_flags_to_clear_eq sgn out (by rw [hb 0 (by omega)]; exact hlt _ _)
    (by rw [hb 1 (by omega)]; exact hlt _ _) (by rw [hb 2 (by omega)]; exact hlt _ _)
    (by rw [hb 3 (by omega)]; exact hlt _ _)
    (fun h => ⟨by rw [hb 1 (by omega)]; exact hs h 1 (by omega) (by omega),
      by rw [hb 2 (by omega)]; exact hs h 2 (by omega) (by omega),
      by rw [hb 3 (by omega)]; exact hs h 3 (by omega) (by omega)⟩),
    hb 0 (by omega), hb 1 (by omega), hb 2 (by omega), hb 3 (by omega)]

/-! ## Claim on the `--irq_flags_clear` command -/

/-- C18, the code at the failing input: for the argument "00000080" the mask
passed to `ll_irq_flags` is 0xFFFFFF80 where plain `char` is signed (the byte
0x80 is sign-extended by `(uint32_t)buf[3]`), and 0x00000080 where it is
unsigned; likewise "00008000" gives 0xFFFF8000 with a signed `char`. -/
theorem irq_flags_clear_sign_extension :
    irq_flags_clear_mask true (cstr [48, 48, 48, 48, 48, 48, 56, 48]) = some 0xFFFFFF80 ∧
    irq_flags_clear_mask false (cstr [48, 48, 48, 48, 48, 48, 56, 48]) = some 0x00000080 ∧
    irq_flags_clear_mask true (cstr [48, 48, 48, 48, 56, 48, 48, 48]) = some 0xFFFF8000 := by
  decide

end NomacTest
